import Mathlib

/-!
Verification development for the CavityTemplate grid-editor widget
(`src/CavityTemplate.tsx`). The grid state model, merge-span index,
selection engine, mutation operations and autofill engine are shallowly
embedded as executable Lean definitions translated from the source, and
the specification's claims are settled as theorems about them.

Modelling conventions:
* JS numbers used as grid coordinates are embedded as `Int`.
* Cell identifier strings `cell_<r>_<c>` are in bijection with coordinate
  pairs `(r, c)`; selections (JS `Set<string>` of such ids, with insertion
  order and no duplicates) are embedded as duplicate-free `List (Int × Int)`
  in insertion order, with `setAdd` playing the role of `Set.add`.
* The JS record `Record<string, MergeSpanInfo>` is embedded as a function
  `String → Option MergeSpanInfo` (key present ↔ `some`).
* React state updates are embedded as pure state-passing: each handler is
  a function from the pre-state to the post-state (plus any `alert` call).
-/

namespace CavityTemplate

/-- A grid cell (interface `CellObject` of the source, without the
redundant `id : string` field, which is always `cell_<rowIndex>_<columnIndex>`). -/
structure CellObject where
  sequenceNumber : String
  isBlocked : Bool
  isMerged : Bool
  mergeId : String
  isBlank : Bool
  rowIndex : Int
  columnIndex : Int
  deriving DecidableEq, Repr

/-- A table row (interface `TableRow` of the source, without the redundant
`id : string` field, which is always `row_<rowIndex>`). -/
structure TableRow where
  rowIndex : Int
  cells : List CellObject
  deriving DecidableEq, Repr

/-- Derived merge-span information (interface `MergeSpanInfo` of the source). -/
structure MergeSpanInfo where
  rowSpan : Int
  colSpan : Int
  anchorRow : Int
  anchorCol : Int
  deriving DecidableEq, Repr

/-- All cells of the grid in row-major order
(the source's `rows.forEach(row => row.cells.forEach(...))` iteration order). -/
def allCells (rows : List TableRow) : List CellObject :=
  (rows.map TableRow.cells).flatten

/-- Minimum of a list of integers; the source applies `Math.min(...)` only to
nonempty position lists (guarded by `selectedCells.size < 2` / merge grouping),
so the `[]` case is unreachable. -/
def listMin : List Int → Int
  | [] => 0
  | x :: xs => xs.foldl min x

/-- Maximum of a list of integers (see `listMin` for the `[]` case). -/
def listMax : List Int → Int
  | [] => 0
  | x :: xs => xs.foldl max x

/-- Positions (rowIndex, columnIndex) of the cells grouped under a given
non-empty `mergeId` by `computeMergeSpans`'s grouping pass
(the source skips cells with `!cell.isMerged || !cell.mergeId`). -/
def mergePositions (rows : List TableRow) (m : String) : List (Int × Int) :=
  (allCells rows).filterMap fun c =>
    if c.isMerged ∧ c.mergeId ≠ "" ∧ c.mergeId = m then some (c.rowIndex, c.columnIndex) else none

/-- `computeMergeSpans` of the source: group cells by non-empty `mergeId` and
return the bounding box of each group. Embedded as the lookup function of the
resulting record: the key `m` is present iff its group is nonempty. -/
def computeMergeSpans (rows : List TableRow) : String → Option MergeSpanInfo := fun m =>
  match mergePositions rows m with
  | [] => none
  | ps =>
    let rows2 := ps.map Prod.fst
    let cols := ps.map Prod.snd
    let minRow := listMin rows2
    let maxRow := listMax rows2
    let minCol := listMin cols
    let maxCol := listMax cols
    some { rowSpan := maxRow - minRow + 1, colSpan := maxCol - minCol + 1,
           anchorRow := minRow, anchorCol := minCol }

/-- `isCellHidden` of the source: a cell is hidden iff it is merged, its
`mergeId` has a span, and its position is not the span's anchor. -/
def isCellHidden (cell : CellObject) (mergeSpans : String → Option MergeSpanInfo) : Bool :=
  if ¬cell.isMerged ∨ cell.mergeId = "" then false
  else match mergeSpans cell.mergeId with
    | none => false
    | some span => ¬(cell.rowIndex = span.anchorRow ∧ cell.columnIndex = span.anchorCol)

/-- `getCellSpan` of the source: the full span for the anchor cell of a merge
group, `(1,1)` otherwise. -/
def getCellSpan (cell : CellObject) (mergeSpans : String → Option MergeSpanInfo) : Int × Int :=
  if ¬cell.isMerged ∨ cell.mergeId = "" then (1, 1)
  else match mergeSpans cell.mergeId with
    | none => (1, 1)
    | some span =>
      if cell.rowIndex = span.anchorRow ∧ cell.columnIndex = span.anchorCol then
        (span.rowSpan, span.colSpan)
      else (1, 1)

/-- Whitespace characters removed by JS `String.prototype.trim()`
(the ASCII ones; the grid's strings never contain the exotic Unicode ones). -/
def isJsWhitespace (ch : Char) : Bool :=
  ch = ' ' ∨ ch = '\t' ∨ ch = '\n' ∨ ch = '\r' ∨ ch = '\x0b' ∨ ch = '\x0c'

/-- JS `val.trim()`, embedded over the character list of the string. -/
def jsTrim (s : String) : String :=
  ⟨((s.data.dropWhile isJsWhitespace).reverse.dropWhile isJsWhitespace).reverse⟩

/-- Character-list test for the regular expression `^-?\d+$`
used by `isInteger` of the source. -/
def matchesIntPattern : List Char → Bool
  | [] => false
  | '-' :: rest => rest ≠ [] ∧ rest.all Char.isDigit
  | cs => cs.all Char.isDigit

/-- `isInteger` of the source: the trimmed value is nonempty, not `"-"`, and
matches the regular expression `^-?\d+$`. -/
def isInteger (val : String) : Bool :=
  let trimmed := jsTrim val
  trimmed ≠ "" ∧ trimmed ≠ "-" ∧ matchesIntPattern trimmed.data

/-- Decimal digits read into a natural number, most significant first. -/
def digitsToNat (cs : List Char) : Nat :=
  cs.foldl (fun acc ch => acc * 10 + (ch.toNat - 48)) 0

/-- JS `parseInt(s, 10)` restricted to inputs validated by `isInteger`:
leading whitespace is skipped and an optional sign is followed by decimal
digits, so the result is the integer denoted by the trimmed string. -/
def parseIntSeq (s : String) : Int :=
  match (jsTrim s).data with
  | '-' :: rest => -(digitsToNat rest : Int)
  | cs => (digitsToNat cs : Int)

/-- `isFillable` of the source: a cell can be autofilled iff it is not blank
and not hidden. -/
def isFillable (cell : CellObject) (mergeSpans : String → Option MergeSpanInfo) : Bool :=
  if cell.isBlank then false
  else if isCellHidden cell mergeSpans then false
  else true

/-- The `getCell` closure used throughout the source:
`tableRows.find(row => row.rowIndex === r)?.cells.find(cell => cell.columnIndex === c)`. -/
def getCell (rows : List TableRow) (r c : Int) : Option CellObject :=
  (rows.find? fun row => row.rowIndex = r).bind fun row =>
    row.cells.find? fun cell => cell.columnIndex = c

/-- `createMergeId` of the source: a merge id is the concatenation of the
decimal representations of the four corner coordinates. -/
def createMergeId (r1 c1 r2 c2 : Int) : String :=
  toString r1 ++ toString c1 ++ toString r2 ++ toString c2

/-- Autofill drag direction (`"horizontal" | "vertical"`; the source's `null`
is embedded as `Option.none` at use sites). -/
inductive Direction where
  | horizontal
  | vertical
  deriving DecidableEq, Repr

/-- One entry of the array returned by `getAutofillCells`. -/
structure FillCell where
  row : Int
  col : Int
  value : Int
  deriving DecidableEq, Repr

/-- The walk of one autofill loop of `getAutofillCells`, with the loop bound
carried as the number `steps` of remaining iterations and the per-iteration
coordinate update abstracted as `dr`/`dc` (`(0, 1)` for the `goRight` loop
`for (let c = sourceCol + 1; c <= maxCol; c++)`, `(0, -1)` for the leftward
loop, `(1, 0)` for `goDown`, `(-1, 0)` for upward). The loop pushes
`{row, col, value: startVal + counter}` while the visited cell exists and is
fillable, breaking at the first missing or unfillable cell. -/
def fillWalk (rows : List TableRow) (spans : String → Option MergeSpanInfo)
    (startVal : Int) (dr dc : Int) : Nat → Int → Int → Int → List FillCell
  | 0, _, _, _ => []
  | steps + 1, counter, r, c =>
    match getCell rows r c with
    | none => []
    | some cell =>
      if isFillable cell spans then
        ⟨r, c, startVal + counter⟩ ::
          fillWalk rows spans startVal dr dc steps (counter + 1) (r + dr) (c + dc)
      else []

/-- `getAutofillCells` of the source: the run of cells autofilled when dragging
from `(sourceRow, sourceCol)` toward `(targetRow, targetCol)` in `direction`.
Each `for` loop of the source runs at most `|target − source|` iterations along
the active axis, which is the `steps` bound handed to `fillWalk`. -/
def getAutofillCells (rows : List TableRow) (spans : String → Option MergeSpanInfo)
    (sourceRow sourceCol targetRow targetCol : Int) (direction : Option Direction) :
    List FillCell :=
  match direction with
  | none => []
  | some dir =>
    match getCell rows sourceRow sourceCol with
    | none => []
    | some sourceCell =>
      if ¬isInteger sourceCell.sequenceNumber then []
      else
        let startVal := parseIntSeq sourceCell.sequenceNumber
        match dir with
        | .horizontal =>
          let minCol := min sourceCol targetCol
          let maxCol := max sourceCol targetCol
          if targetCol > sourceCol then
            fillWalk rows spans startVal 0 1 (maxCol - sourceCol).toNat 1
              sourceRow (sourceCol + 1)
          else
            fillWalk rows spans startVal 0 (-1) (sourceCol - minCol).toNat 1
              sourceRow (sourceCol - 1)
        | .vertical =>
          let minRow := min sourceRow targetRow
          let maxRow := max sourceRow targetRow
          if targetRow > sourceRow then
            fillWalk rows spans startVal 1 0 (maxRow - sourceRow).toNat 1
              (sourceRow + 1) sourceCol
          else
            fillWalk rows spans startVal (-1) 0 (sourceRow - minRow).toNat 1
              (sourceRow - 1) sourceCol

/-- A position can be autofilled iff a cell exists there and `isFillable`
holds (the loop-continuation condition `cell && isFillable(cell, mergeSpans)`
of `getAutofillCells`). -/
def fillableAt (rows : List TableRow) (spans : String → Option MergeSpanInfo)
    (r c : Int) : Bool :=
  match getCell rows r c with
  | none => false
  | some cell => isFillable cell spans

/-- Direction inference of `handleCellMouseEnterAutofill`: horizontal on the
source row, vertical on the source column, larger absolute delta otherwise
(ties favor horizontal), and no direction on the source cell itself. -/
def inferAutofillDirection (sourceRow sourceCol rowIndex colIndex : Int) : Option Direction :=
  if rowIndex = sourceRow ∧ colIndex ≠ sourceCol then some .horizontal
  else if colIndex = sourceCol ∧ rowIndex ≠ sourceRow then some .vertical
  else if rowIndex ≠ sourceRow ∧ colIndex ≠ sourceCol then
    let rowDelta := (rowIndex - sourceRow).natAbs
    let colDelta := (colIndex - sourceCol).natAbs
    if colDelta ≥ rowDelta then some .horizontal else some .vertical
  else none

/-! ### Selection engine

A selection is the JS `Set` of cell id strings `cell_<r>_<c>`, embedded as the
duplicate-free insertion-ordered list of the corresponding `(r, c)` pairs. -/

/-- A selection: insertion-ordered cell coordinates. -/
abbrev Selection := List (Int × Int)

/-- JS `Set.add`: append the element unless already present. -/
def setAdd (s : Selection) (p : Int × Int) : Selection :=
  if p ∈ s then s else s ++ [p]

/-- Union a list of ids onto a selection by repeated `Set.add`
(the source's `dragged.forEach(c => final.add(c))`). -/
def setUnion (s : Selection) (l : List (Int × Int)) : Selection :=
  l.foldl setAdd s

/-- Half-open-free integer range `[lo, hi]` in increasing order. -/
def intRange (lo hi : Int) : List Int :=
  (List.range (hi + 1 - lo).toNat).map fun i : Nat => lo + (i : Int)

/-- `getRectangularSelection` of the source: every cell id in the rectangle
spanned by the two corner cells, regardless of hidden/merge status, generated
row-major (outer loop rows, inner loop columns). -/
def getRectangularSelection (startRow startCol endRow endCol : Int) : List (Int × Int) :=
  let minRow := min startRow endRow
  let maxRow := max startRow endRow
  let minCol := min startCol endCol
  let maxCol := max startCol endCol
  (intRange minRow maxRow).flatMap fun r => (intRange minCol maxCol).map fun c => (r, c)

/-- The selection produced by `handleCellMouseEnter` during a drag: the
rectangular span between the drag-start cell and the hovered cell unioned onto
the pre-selection snapshot; outside a drag the selection is unchanged. -/
def handleCellMouseEnterSelection (isDragging : Bool) (dragStartCell : Option (Int × Int))
    (preSelection selectedCells : Selection) (rowIndex colIndex : Int) : Selection :=
  if isDragging then
    match dragStartCell with
    | some start =>
      setUnion preSelection (getRectangularSelection start.1 start.2 rowIndex colIndex)
    | none => selectedCells
  else selectedCells

/-- The selection produced by `handleCellMouseDown` (press on a cell): with a
held shift modifier the pressed cell is added, otherwise the selection becomes
exactly the pressed cell; guards (selection disabled, press on an embedded
input, active autofill drag) leave the selection unchanged. -/
def handleCellMouseDownSelection (isSelectionAllowed targetIsInput autofillActive : Bool)
    (shiftKey : Bool) (selectedCells : Selection) (rowIndex colIndex : Int) : Selection :=
  if ¬isSelectionAllowed then selectedCells
  else if targetIsInput then selectedCells
  else if autofillActive then selectedCells
  else if shiftKey then setAdd selectedCells (rowIndex, colIndex)
  else [(rowIndex, colIndex)]

/-- The selection produced by `handleCellClick`: in selection mode a
ctrl/cmd-click toggles (but never empties) and a plain click adds; outside
selection mode the selection becomes exactly the clicked cell. -/
def handleCellClickSelection (isSelectionAllowed isDragging isSelectionMode isCtrlOrCmd : Bool)
    (selectedCells : Selection) (rowIndex colIndex : Int) : Selection :=
  if ¬isSelectionAllowed then selectedCells
  else if isDragging then selectedCells
  else if isSelectionMode then
    if isCtrlOrCmd then
      if (rowIndex, colIndex) ∈ selectedCells ∧ selectedCells.length > 1 then
        selectedCells.filter (fun p => p ≠ (rowIndex, colIndex))
      else setAdd selectedCells (rowIndex, colIndex)
    else
      if (rowIndex, colIndex) ∈ selectedCells ∧ selectedCells.length = 1 then selectedCells
      else setAdd selectedCells (rowIndex, colIndex)
  else [(rowIndex, colIndex)]

/-- The selection produced by `selectAllCells`: every non-hidden cell of the
grid in row-major order; with selection disabled the selection is unchanged. -/
def selectAllCellsSelection (isSelectionAllowed : Bool) (rows : List TableRow)
    (spans : String → Option MergeSpanInfo) (selectedCells : Selection) : Selection :=
  if ¬isSelectionAllowed then selectedCells
  else setUnion [] ((allCells rows).filterMap fun cell =>
    if isCellHidden cell spans then none else some (cell.rowIndex, cell.columnIndex))

/-! ### Grid model: creation, dimensions, single-cell update helpers -/

/-- A fresh default cell: `sequenceNumber = "-"`, all flags false. -/
def defaultCell (rowIndex colIndex : Int) : CellObject :=
  { sequenceNumber := "-", isBlocked := false, isMerged := false, mergeId := "",
    isBlank := false, rowIndex := rowIndex, columnIndex := colIndex }

/-- One default row of `cols` cells with 1-based column indices. -/
def defaultRow (rowIndex : Int) (cols : Nat) : TableRow :=
  { rowIndex,
    cells := (List.range cols).map fun cIdx : Nat => defaultCell rowIndex ((cIdx : Int) + 1) }

/-- `createNewTable` of the source: a fresh grid of default cells with 1-based
indices; the guard `rows <= 0 || cols <= 0` returns without creating a grid,
embedded as `none`. -/
def createNewTable (rows cols : Int) : Option (List TableRow) :=
  if rows ≤ 0 ∨ cols ≤ 0 then none
  else some ((List.range rows.toNat).map fun idx : Nat => defaultRow ((idx : Int) + 1) cols.toNat)

/-- Outcome of `applyDimensions` (the direct path without the external
`onGenerateTable` action): either an `alert` message with no state change, or
a freshly created grid. -/
inductive DimensionsOutcome where
  | rejected (message : String)
  | created (rows : List TableRow)
  | noChange
  deriving DecidableEq, Repr

/-- `applyDimensions` of the source (direct path): the entered row/column
counts are validated before any state change; `none` inputs embed JS `NaN`. -/
def applyDimensions (rowCount columnCount : Option Int) : DimensionsOutcome :=
  match rowCount, columnCount with
  | some r, some c =>
    if r ≤ 0 ∨ c ≤ 0 then .rejected "Rows and columns must be positive numbers"
    else if r > 100 ∨ c > 100 then .rejected "Maximum 100 rows and 100 columns"
    else match createNewTable r c with
      | some g => .created g
      | none => .noChange
  | _, _ => .rejected "Please enter valid numbers"

/-- `addRow` of the source: rejects with an alert when the new row count would
exceed 100 (state unchanged), otherwise appends one default row with
`rowIndex = rowCount + 1`. Returns (new rowCount, new rows, alert). -/
def addRow (rowCount columnCount : Int) (rows : List TableRow) :
    Int × List TableRow × Option String :=
  let newRowCount := rowCount + 1
  if newRowCount > 100 then (rowCount, rows, some "Maximum 100 rows")
  else (newRowCount, rows ++ [defaultRow newRowCount columnCount.toNat], none)

/-- `addColumn` of the source: rejects with an alert when the new column count
would exceed 100 (state unchanged), otherwise extends every row by one default
cell with `columnIndex = columnCount + 1`. Returns (new columnCount, new rows,
alert). -/
def addColumn (columnCount : Int) (rows : List TableRow) :
    Int × List TableRow × Option String :=
  let newColCount := columnCount + 1
  if newColCount > 100 then (columnCount, rows, some "Maximum 100 columns")
  else (newColCount,
    rows.map fun row => { row with cells := row.cells ++ [defaultCell row.rowIndex newColCount] },
    none)

/-- Apply `f` to every cell of the grid (the source's
`newRows.forEach(row => row.cells.forEach(...))` in-place mutation pattern). -/
def mapAllCells (f : CellObject → CellObject) (rows : List TableRow) : List TableRow :=
  rows.map fun row => { row with cells := row.cells.map f }

/-- Apply `f` to the first cell with the given column index
(the in-place mutation of the cell found by `cells.find(...)`). -/
def updateCellInCells (cells : List CellObject) (c : Int) (f : CellObject → CellObject) :
    List CellObject :=
  match cells with
  | [] => []
  | cell :: rest =>
    if cell.columnIndex = c then f cell :: rest
    else cell :: updateCellInCells rest c f

/-- Apply `f` to the cell found by
`rows.find(row => row.rowIndex === r)?.cells.find(cell => cell.columnIndex === c)`
(the source's in-place mutation of a located cell). -/
def updateFirstCell (rows : List TableRow) (r c : Int) (f : CellObject → CellObject) :
    List TableRow :=
  match rows with
  | [] => []
  | row :: rest =>
    if row.rowIndex = r then { row with cells := updateCellInCells row.cells c f } :: rest
    else row :: updateFirstCell rest r c f

/-! ### Statistics -/

/-- `totalCells` of `updateCellStatistics`: sum of `row.cells.length`. -/
def totalCells (rows : List TableRow) : Nat :=
  rows.foldl (fun sum row => sum + row.cells.length) 0

/-- `blockedCells` of `updateCellStatistics`: count of cells with `isBlocked`. -/
def blockedCells (rows : List TableRow) : Nat :=
  rows.foldl (fun sum row => sum + (row.cells.filter fun c => c.isBlocked).length) 0

/-- `mergedCells` of `updateCellStatistics`: count of non-hidden merged cells. -/
def mergedCells (rows : List TableRow) (spans : String → Option MergeSpanInfo) : Nat :=
  rows.foldl (fun sum row =>
    sum + (row.cells.filter fun c => c.isMerged ∧ ¬isCellHidden c spans).length) 0

/-- `blankCells` of `updateCellStatistics`: count of non-hidden blank cells. -/
def blankCells (rows : List TableRow) (spans : String → Option MergeSpanInfo) : Nat :=
  rows.foldl (fun sum row =>
    sum + (row.cells.filter fun c => c.isBlank ∧ ¬isCellHidden c spans).length) 0

/-! ### Mutation operations -/

/-- `handleCellValueChange` of the source: set the located cell's
`sequenceNumber`; when the cell carries a non-empty `mergeId` the same value is
written to every cell sharing that `mergeId`; a missing coordinate is a no-op. -/
def handleCellValueChange (rows : List TableRow) (rowIndex colIndex : Int) (newValue : String) :
    List TableRow :=
  match getCell rows rowIndex colIndex with
  | none => rows
  | some targetCell =>
    let newRows := updateFirstCell rows rowIndex colIndex
      fun cell => { cell with sequenceNumber := newValue }
    if targetCell.mergeId ≠ "" then
      mapAllCells (fun cell =>
        if cell.mergeId = targetCell.mergeId then { cell with sequenceNumber := newValue }
        else cell) newRows
    else newRows

/-- `handleCheckboxChange` of the source: toggle the located cell's
`isBlocked`; when the cell carries a non-empty `mergeId` the new flag is
written to every cell sharing that `mergeId`; a missing coordinate is a no-op. -/
def handleCheckboxChange (rows : List TableRow) (rowIndex colIndex : Int) : List TableRow :=
  match getCell rows rowIndex colIndex with
  | none => rows
  | some targetCell =>
    let newBlocked := !targetCell.isBlocked
    let newRows := updateFirstCell rows rowIndex colIndex
      fun cell => { cell with isBlocked := newBlocked }
    if targetCell.mergeId ≠ "" then
      mapAllCells (fun cell =>
        if cell.mergeId = targetCell.mergeId then { cell with isBlocked := newBlocked }
        else cell) newRows
    else newRows

/-- `unmergeCells` of the source: operates on the first selected cell only; if
it exists and is merged, clears `isMerged`/`mergeId` on every cell sharing its
`mergeId`; otherwise the grid is unchanged. -/
def unmergeCells (selectedCells : Selection) (rows : List TableRow) : List TableRow :=
  match selectedCells with
  | [] => rows
  | (rowIndex, colIndex) :: _ =>
    match getCell rows rowIndex colIndex with
    | none => rows
    | some target =>
      if ¬target.isMerged then rows
      else
        mapAllCells (fun cell =>
          if cell.mergeId = target.mergeId then { cell with isMerged := false, mergeId := "" }
          else cell) rows

/-- One step of `blankSelectedCells` / `unblankSelectedCells`: locate the
selected cell in the current grid; skip it when missing or hidden (hidden is
judged against the pre-mutation `mergeSpans` state); otherwise set `isBlank`
and propagate to the whole merge group when `mergeId` is non-empty. -/
def setBlankStep (spans : String → Option MergeSpanInfo) (b : Bool)
    (rows : List TableRow) (p : Int × Int) : List TableRow :=
  match getCell rows p.1 p.2 with
  | none => rows
  | some cell =>
    if isCellHidden cell spans then rows
    else
      let newRows := updateFirstCell rows p.1 p.2 fun c => { c with isBlank := b }
      if cell.mergeId ≠ "" then
        mapAllCells (fun c => if c.mergeId = cell.mergeId then { c with isBlank := b } else c)
          newRows
      else newRows

/-- `blankSelectedCells` of the source: for each selected visible cell set
`isBlank := true`, propagating across merge groups; empty selection is a no-op. -/
def blankSelectedCells (selectedCells : Selection) (spans : String → Option MergeSpanInfo)
    (rows : List TableRow) : List TableRow :=
  if selectedCells.length = 0 then rows
  else selectedCells.foldl (setBlankStep spans true) rows

/-- `unblankSelectedCells` of the source: for each selected visible cell set
`isBlank := false`, propagating across merge groups; empty selection is a no-op. -/
def unblankSelectedCells (selectedCells : Selection) (spans : String → Option MergeSpanInfo)
    (rows : List TableRow) : List TableRow :=
  if selectedCells.length = 0 then rows
  else selectedCells.foldl (setBlankStep spans false) rows

/-! ### Merge -/

/-- `Math.min(...positions.map(p => p.row))` over the selection. -/
def selMinRow (sel : Selection) : Int := listMin (sel.map Prod.fst)

/-- `Math.max(...positions.map(p => p.row))` over the selection. -/
def selMaxRow (sel : Selection) : Int := listMax (sel.map Prod.fst)

/-- `Math.min(...positions.map(p => p.col))` over the selection. -/
def selMinCol (sel : Selection) : Int := listMin (sel.map Prod.snd)

/-- `Math.max(...positions.map(p => p.col))` over the selection. -/
def selMaxCol (sel : Selection) : Int := listMax (sel.map Prod.snd)

/-- The row-major list of cell positions in the rectangle
`rows [minRow, maxRow] × cols [minCol, maxCol]`. -/
def rectanglePositions (minRow maxRow minCol maxCol : Int) : List (Int × Int) :=
  (intRange minRow maxRow).flatMap fun r => (intRange minCol maxCol).map fun c => (r, c)

/-- The merge validity check of `mergeCells`: every cell id in the bounding
rectangle is either already selected, or is a merged cell whose group's span
exists and whose anchor cell is selected. -/
def isValidRect (rows : List TableRow) (spans : String → Option MergeSpanInfo)
    (selectedCells : Selection) (minRow maxRow minCol maxCol : Int) : Bool :=
  (rectanglePositions minRow maxRow minCol maxCol).all fun p =>
    if p ∈ selectedCells then true
    else match getCell rows p.1 p.2 with
      | none => false
      | some cell =>
        if cell.isMerged ∧ cell.mergeId ≠ "" then
          match spans cell.mergeId with
          | none => false
          | some span => (span.anchorRow, span.anchorCol) ∈ selectedCells
        else false

/-- Clear `isMerged`/`mergeId` on every cell sharing the given merge id
(the dissolve pass of `mergeCells`). -/
def clearMergeGroup (m : String) (rows : List TableRow) : List TableRow :=
  mapAllCells (fun c2 =>
    if c2.mergeId = m then { c2 with isMerged := false, mergeId := "" } else c2) rows

/-- The dissolve loop of `mergeCells`: walk the rectangle positions in
row-major order; whenever the current grid holds a merged cell with a
non-empty `mergeId` there, ungroup every cell sharing that id. -/
def dissolveRectangle (rows : List TableRow) (rect : List (Int × Int)) : List TableRow :=
  rect.foldl (fun g p =>
    match getCell g p.1 p.2 with
    | none => g
    | some cell =>
      if cell.isMerged ∧ cell.mergeId ≠ "" then clearMergeGroup cell.mergeId g else g) rows

/-- The assignment applied to every rectangle cell by `mergeCells`: copy the
top-left cell's `sequenceNumber`/`isBlocked`/`isBlank` and mark it merged
under the new merge id. -/
def assignMerged (topLeft : CellObject) (mergeId : String) (cell : CellObject) : CellObject :=
  { cell with
      sequenceNumber := topLeft.sequenceNumber,
      isBlocked := topLeft.isBlocked,
      isBlank := topLeft.isBlank,
      isMerged := true,
      mergeId := mergeId }

/-- The assignment loop of `mergeCells`: for each rectangle position, locate
the cell (skipping missing ones) and apply `assignMerged`. -/
def assignRectangle (rows : List TableRow) (rect : List (Int × Int))
    (topLeft : CellObject) (mergeId : String) : List TableRow :=
  rect.foldl (fun g p => updateFirstCell g p.1 p.2 (assignMerged topLeft mergeId)) rows

/-- Derived description of the dissolve loop of `mergeCells`: a merge id is
dissolved iff the original grid holds, at some rectangle position, a merged
cell carrying it (the groups "touched by the rectangle"). -/
def dissolvedIds (rows : List TableRow) (rect : List (Int × Int)) (m : String) : Bool :=
  rect.any fun p =>
    match getCell rows p.1 p.2 with
    | none => false
    | some cell => cell.isMerged ∧ cell.mergeId = m

/-- The cell-wise effect of the dissolve loop of `mergeCells`: a cell is
ungrouped iff its non-empty merge id is touched by the rectangle. -/
def dissolveFun (rows : List TableRow) (rect : List (Int × Int)) (cell : CellObject) :
    CellObject :=
  if cell.mergeId ≠ "" ∧ dissolvedIds rows rect cell.mergeId then
    { cell with isMerged := false, mergeId := "" }
  else cell

/-- Two cells agree on the propagated fields
`sequenceNumber`/`isBlocked`/`isBlank`. -/
abbrev sameFields (a b : CellObject) : Prop :=
  a.sequenceNumber = b.sequenceNumber ∧ a.isBlocked = b.isBlocked ∧ a.isBlank = b.isBlank

/-- The propagation invariant: all cells sharing a non-empty `mergeId` have
identical `sequenceNumber`, `isBlocked` and `isBlank`. -/
abbrev GroupConsistent (rows : List TableRow) : Prop :=
  ∀ c1 ∈ allCells rows, ∀ c2 ∈ allCells rows,
    c1.mergeId = c2.mergeId → c1.mergeId ≠ "" → sameFields c1 c2

/-- The data-model invariant of the spec: `isMerged == false` iff
`mergeId == ""`. -/
abbrev MergeFlagInv (rows : List TableRow) : Prop :=
  ∀ cell ∈ allCells rows, cell.isMerged = true ↔ cell.mergeId ≠ ""

/-- The post-state of `mergeCells`: grid, selection, selection mode and the
`alert` message (if any). -/
structure MergeOutcome where
  rows : List TableRow
  selectedCells : Selection
  isSelectionMode : Bool
  alertMsg : Option String
  deriving DecidableEq, Repr

/-- `mergeCells` of the source: silently ignores selections of fewer than 2
cells; validates the bounding rectangle of the selection and reports
`"Please select a rectangular area to merge"` without mutating anything when
the check fails; otherwise dissolves the merge groups touched by the
rectangle, assigns the new corner-derived merge id with the top-left cell's
fields to every rectangle cell, and clears the selection. -/
def mergeCells (rows : List TableRow) (spans : String → Option MergeSpanInfo)
    (selectedCells : Selection) (isSelectionMode : Bool) : MergeOutcome :=
  if selectedCells.length < 2 then ⟨rows, selectedCells, isSelectionMode, none⟩
  else
    let minRow := selMinRow selectedCells
    let maxRow := selMaxRow selectedCells
    let minCol := selMinCol selectedCells
    let maxCol := selMaxCol selectedCells
    if ¬isValidRect rows spans selectedCells minRow maxRow minCol maxCol then
      ⟨rows, selectedCells, isSelectionMode, some "Please select a rectangular area to merge"⟩
    else
      let rect := rectanglePositions minRow maxRow minCol maxCol
      let dissolved := dissolveRectangle rows rect
      let mergeId := createMergeId minRow minCol maxRow maxCol
      let newRows :=
        match getCell dissolved minRow minCol with
        | none => rows
        | some topLeft => assignRectangle dissolved rect topLeft mergeId
      ⟨newRows, [], false, none⟩

/-! ### Autofill commit -/

/-- One step of the commit loop of `handleAutofillMouseUp`: locate the fill
cell (skipping missing ones), write the stringified value, and when the cell
is merged with a non-empty `mergeId` write it to the whole group. -/
def autofillStep (rows : List TableRow) (fc : FillCell) : List TableRow :=
  match getCell rows fc.row fc.col with
  | none => rows
  | some cell =>
    let newRows := updateFirstCell rows fc.row fc.col
      fun c => { c with sequenceNumber := toString fc.value }
    if cell.isMerged ∧ cell.mergeId ≠ "" then
      mapAllCells (fun c =>
        if c.mergeId = cell.mergeId then { c with sequenceNumber := toString fc.value } else c)
        newRows
    else newRows

/-- `handleAutofillMouseUp` of the source (the grid mutation it commits): with
no active drag the grid is unchanged; otherwise the run is recomputed from the
final drag state and, when nonempty, each fill value is applied with merge
propagation. -/
def handleAutofillMouseUp (active : Bool) (sourceRow sourceCol : Int)
    (direction : Option Direction) (currentRow currentCol : Int)
    (rows : List TableRow) (spans : String → Option MergeSpanInfo) : List TableRow :=
  if ¬active then rows
  else
    let targetRow := if direction = some .horizontal then sourceRow else currentRow
    let targetCol := if direction = some .vertical then sourceCol else currentCol
    let fillCells := getAutofillCells rows spans sourceRow sourceCol targetRow targetCol direction
    if fillCells.length > 0 then fillCells.foldl autofillStep rows
    else rows

/-! ### Snapshot load -/

/-- An incoming snapshot cell: every field may be absent (`none` embeds a
missing/`undefined` JSON field). -/
structure RawCell where
  sequenceNumber : Option String
  isBlocked : Option Bool
  isMerged : Option Bool
  mergeId : Option String
  isBlank : Option Bool
  rowIndex : Option Int
  columnIndex : Option Int
  deriving DecidableEq, Repr

/-- An incoming snapshot row. -/
structure RawRow where
  rowIndex : Option Int
  cells : List RawCell
  deriving DecidableEq, Repr

/-- An incoming snapshot (`TableData` as parsed from JSON); `none` fields
embed missing JSON keys. A failed `JSON.parse` or a non-object payload is
embedded as `none` at the `loadTable` call site. -/
structure RawTable where
  rows : Option Int
  columns : Option Int
  tableRows : Option (List RawRow)
  deriving DecidableEq, Repr

/-- Cell validation of the load effect: indices are re-derived from the
1-based array position, a missing or empty `sequenceNumber` becomes `"-"`, a
missing `isBlocked` becomes `false`, and falsy `isMerged`/`isBlank`/`mergeId`
become `false`/`false`/`""`. -/
def validateCell (rowIndex colIndex : Int) (cell : RawCell) : CellObject :=
  { sequenceNumber := match cell.sequenceNumber with
      | none => "-"
      | some s => if s = "" then "-" else s
    isBlocked := cell.isBlocked.getD false
    isMerged := cell.isMerged.getD false
    mergeId := cell.mergeId.getD ""
    isBlank := cell.isBlank.getD false
    rowIndex := rowIndex
    columnIndex := colIndex }

/-- Row validation of the load effect: 1-based positional `rowIndex`,
cells validated at their 1-based positional `columnIndex`. -/
def validateRow (rowIndex : Int) (row : RawRow) : TableRow :=
  { rowIndex,
    cells := row.cells.mapIdx fun cIdx cell => validateCell rowIndex ((cIdx : Int) + 1) cell }

/-- The load effect of the source: accept the snapshot only when `tableRows`
is present and `rows > 0` and `columns > 0`; on acceptance every row/cell is
re-indexed by array position and defaulted; otherwise (including a failed
parse, embedded as `none`) nothing is loaded. -/
def loadTable (incomingData : Option RawTable) : Option (List TableRow) :=
  match incomingData with
  | none => none
  | some tableData =>
    match tableData.tableRows, tableData.rows, tableData.columns with
    | some trs, some r, some c =>
      if r > 0 ∧ c > 0 then
        some (trs.mapIdx fun idx row => validateRow ((idx : Int) + 1) row)
      else none
    | _, _, _ => none

/-- The load-or-fallback composition: when `loadTable` rejects the snapshot,
`dataLoaded` stays false and the fallback effect creates a fresh default grid
from the current row/column counts. -/
def loadOrCreate (incomingData : Option RawTable) (rowCount columnCount : Int) :
    Option (List TableRow) :=
  match loadTable incomingData with
  | some g => some g
  | none => createNewTable rowCount columnCount

/-! ### Concrete instances used by counterexamples and witnesses -/

/-- Shorthand for building a concrete cell. -/
def mkCell (seq : String) (blocked merged : Bool) (m : String) (blank : Bool)
    (r c : Int) : CellObject :=
  { sequenceNumber := seq, isBlocked := blocked, isMerged := merged, mergeId := m,
    isBlank := blank, rowIndex := r, columnIndex := c }

/-- A 2×2 grid whose top row is merged under id `"m"` (so cell (1,2) is
hidden), with every cell blocked. -/
def hiddenDemoGrid : List TableRow :=
  [ { rowIndex := 1, cells := [mkCell "-" true true "m" false 1 1,
                               mkCell "-" true true "m" false 1 2] },
    { rowIndex := 2, cells := [mkCell "-" true false "" false 2 1,
                               mkCell "-" true false "" false 2 2] } ]

/-! ### Helper lemmas on selections and statistics -/

theorem mem_setAdd {s : Selection} {q p : Int × Int} (h : p ∈ setAdd s q) : p ∈ s ∨ p = q := by
  unfold setAdd at h
  split_ifs at h with h1
  · exact Or.inl h
  · rcases List.mem_append.mp h with h2 | h2
    · exact Or.inl h2
    · exact Or.inr (List.mem_singleton.mp h2)

theorem mem_setUnion {l : List (Int × Int)} {s : Selection} {p : Int × Int}
    (h : p ∈ setUnion s l) : p ∈ s ∨ p ∈ l := by
  induction l generalizing s with
  | nil => exact Or.inl h
  | cons q rest ih =>
    rcases ih h with h1 | h1
    · rcases mem_setAdd h1 with h2 | h2
      · exact Or.inl h2
      · exact Or.inr (by simp [h2])
    · exact Or.inr (List.mem_cons_of_mem _ h1)

theorem foldl_filter_length (f : CellObject → Bool) (rows : List TableRow) (a : Nat) :
    rows.foldl (fun sum row => sum + (row.cells.filter f).length) a =
      a + ((allCells rows).filter f).length := by
  induction rows generalizing a with
  | nil => simp [allCells]
  | cons row rest ih =>
    simp only [List.foldl_cons, ih, allCells, List.map_cons, List.flatten_cons,
      List.filter_append, List.length_append]
    omega

theorem foldl_cells_length (rows : List TableRow) (a : Nat) :
    rows.foldl (fun sum row => sum + row.cells.length) a = a + (allCells rows).length := by
  induction rows generalizing a with
  | nil => simp [allCells]
  | cons row rest ih =>
    simp only [List.foldl_cons, ih, allCells, List.map_cons, List.flatten_cons,
      List.length_append]
    omega

/-- A fresh default 3×3 grid. -/
def grid3x3 : List TableRow := (createNewTable 3 3).getD []

/-- A 2×2 grid whose first column is merged under id `"g"` with value `"7"`,
used to witness the merge effect: merging the top row dissolves `"g"`
including its cell (2,1) outside the rectangle. -/
def mergeDemoGrid : List TableRow :=
  [ { rowIndex := 1, cells := [mkCell "7" false true "g" false 1 1,
                               mkCell "-" false false "" false 1 2] },
    { rowIndex := 2, cells := [mkCell "7" false true "g" false 2 1,
                               mkCell "-" false false "" false 2 2] } ]

/-- A 4×2 grid whose bottom two rows form a merge group loaded with the id
`"1122"` (identical fields, legal data-model state). Merging the top 2×2
block creates the corner-derived id `"1122"` for a disjoint rectangle,
colliding with the untouched group. -/
def collisionDemoGrid : List TableRow :=
  [ { rowIndex := 1, cells := [mkCell "-" false false "" false 1 1,
                               mkCell "-" false false "" false 1 2] },
    { rowIndex := 2, cells := [mkCell "-" false false "" false 2 1,
                               mkCell "-" false false "" false 2 2] },
    { rowIndex := 3, cells := [mkCell "7" false true "1122" false 3 1,
                               mkCell "7" false true "1122" false 3 2] },
    { rowIndex := 4, cells := [mkCell "7" false true "1122" false 4 1,
                               mkCell "7" false true "1122" false 4 2] } ]

/-- A raw snapshot cell carrying misleading indices and missing fields, used
to witness the load behavior. -/
def rawCellDemo : RawCell :=
  { sequenceNumber := none, isBlocked := none, isMerged := none, mergeId := none,
    isBlank := none, rowIndex := some 99, columnIndex := some 42 }

/-- A raw snapshot with one row of one cell whose carried indices are wrong. -/
def rawTableDemo : RawTable :=
  { rows := some 1, columns := some 1, tableRows := some [⟨some 77, [rawCellDemo]⟩] }

/-- A 1×4 grid with `"5"` at (1,1) and default cells elsewhere (the spec's
autofill example). -/
def autofillDemoGrid : List TableRow :=
  [ { rowIndex := 1, cells := [mkCell "5" false false "" false 1 1,
      mkCell "-" false false "" false 1 2, mkCell "-" false false "" false 1 3,
      mkCell "-" false false "" false 1 4] } ]

/-- Characterization of `fillWalk`: the walk visits `start + step·i`, is
bounded by `steps`, consists exactly of fillable positions, and stops exactly
at the first unfillable or missing position (when it stops early). -/
theorem fillWalk_spec (rows : List TableRow) (spans : String → Option MergeSpanInfo)
    (startVal dr dc : Int) :
    ∀ (steps : Nat) (counter r c : Int),
      (fillWalk rows spans startVal dr dc steps counter r c).length ≤ steps ∧
      (∀ i, i < (fillWalk rows spans startVal dr dc steps counter r c).length →
        (fillWalk rows spans startVal dr dc steps counter r c)[i]? =
          some ⟨r + dr * (i : Int), c + dc * (i : Int), startVal + counter + (i : Int)⟩ ∧
        fillableAt rows spans (r + dr * (i : Int)) (c + dc * (i : Int)) = true) ∧
      ((fillWalk rows spans startVal dr dc steps counter r c).length < steps →
        fillableAt rows spans
          (r + dr * ((fillWalk rows spans startVal dr dc steps counter r c).length : Int))
          (c + dc * ((fillWalk rows spans startVal dr dc steps counter r c).length : Int))
          = false) := by
  intro steps
  induction steps with
  | zero =>
    intro counter r c
    simp [fillWalk]
  | succ n ih =>
    intro counter r c
    rcases hcell : getCell rows r c with _ | cell
    · refine ⟨by simp [fillWalk, hcell], fun i hl => ?_, fun hlt => ?_⟩
      · simp [fillWalk, hcell] at hl
      · simp only [fillWalk, hcell, List.length_nil, Nat.cast_zero, mul_zero, add_zero]
        simp [fillableAt, hcell]
    · by_cases hfill : isFillable cell spans
      · have hrun : fillWalk rows spans startVal dr dc (n + 1) counter r c =
            ⟨r, c, startVal + counter⟩ ::
              fillWalk rows spans startVal dr dc n (counter + 1) (r + dr) (c + dc) := by
          simp [fillWalk, hcell, hfill]
        obtain ⟨ih1, ih2, ih3⟩ := ih (counter + 1) (r + dr) (c + dc)
        refine ⟨?_, fun i hl => ?_, fun hlt => ?_⟩
        · rw [hrun]
          simpa using ih1
        · rw [hrun] at hl ⊢
          match i with
          | 0 =>
            constructor
            · simp
            · simpa [fillableAt, hcell] using hfill
          | Nat.succ i2 =>
            have hl2 : i2 <
                (fillWalk rows spans startVal dr dc n (counter + 1) (r + dr) (c + dc)).length := by
              simpa using Nat.lt_of_succ_lt_succ hl
            obtain ⟨he, hf⟩ := ih2 i2 hl2
            have h3 : r + dr + dr * (i2 : Int) = r + dr * ((i2 : Int) + 1) := by ring
            have h4 : c + dc + dc * (i2 : Int) = c + dc * ((i2 : Int) + 1) := by ring
            constructor
            · rw [List.getElem?_cons_succ, he, h3, h4]
              have h5 : startVal + (counter + 1) + (i2 : Int) =
                  startVal + counter + ((i2 : Int) + 1) := by ring
              rw [h5]
              push_cast
              ring_nf
            · rw [h3, h4] at hf
              push_cast
              convert hf using 2
        · rw [hrun] at hlt ⊢
          have hlt2 :
              (fillWalk rows spans startVal dr dc n (counter + 1) (r + dr) (c + dc)).length < n := by
            simpa using Nat.lt_of_succ_lt_succ hlt
          have hf := ih3 hlt2
          have h3 : ∀ L : Int, r + dr + dr * L = r + dr * (L + 1) := fun L => by ring
          have h4 : ∀ L : Int, c + dc + dc * L = c + dc * (L + 1) := fun L => by ring
          rw [h3, h4] at hf
          rw [List.length_cons]
          push_cast
          convert hf using 2
      · have hrun : fillWalk rows spans startVal dr dc (n + 1) counter r c = [] := by
          simp [fillWalk, hcell, hfill]
        refine ⟨by simp [hrun], fun i hl => ?_, fun hlt => ?_⟩
        · simp [hrun] at hl
        · rw [hrun]
          simp only [List.length_nil, Nat.cast_zero, mul_zero, add_zero]
          simp only [fillableAt, hcell]
          simpa using hfill

/-- `fillWalk_spec` re-indexed from the source cell: the walk that starts one
step away from `(sr, sc)` visits `source + step·(i+1)` and carries the value
`startVal + (i+1)`. -/
theorem fillWalk_shift_spec (rows : List TableRow) (spans : String → Option MergeSpanInfo)
    (startVal dr dc : Int) (steps : Nat) (sr sc r0 c0 : Int)
    (h0r : r0 = sr + dr) (h0c : c0 = sc + dc) :
    (fillWalk rows spans startVal dr dc steps 1 r0 c0).length ≤ steps ∧
    (∀ i, i < (fillWalk rows spans startVal dr dc steps 1 r0 c0).length →
      (fillWalk rows spans startVal dr dc steps 1 r0 c0)[i]? =
        some ⟨sr + dr * ((i : Int) + 1), sc + dc * ((i : Int) + 1),
          startVal + (i : Int) + 1⟩ ∧
      fillableAt rows spans (sr + dr * ((i : Int) + 1)) (sc + dc * ((i : Int) + 1)) = true) ∧
    ((fillWalk rows spans startVal dr dc steps 1 r0 c0).length < steps →
      fillableAt rows spans
        (sr + dr * (((fillWalk rows spans startVal dr dc steps 1 r0 c0).length : Int)
          + 1))
        (sc + dc * (((fillWalk rows spans startVal dr dc steps 1 r0 c0).length : Int)
          + 1)) = false) := by
  subst h0r h0c
  obtain ⟨h1, h2, h3⟩ := fillWalk_spec rows spans startVal dr dc steps 1 (sr + dr) (sc + dc)
  have hr : ∀ L : Int, sr + dr + dr * L = sr + dr * (L + 1) := fun L => by ring
  have hc : ∀ L : Int, sc + dc + dc * L = sc + dc * (L + 1) := fun L => by ring
  refine ⟨h1, fun i hl => ?_, fun hlt => ?_⟩
  · obtain ⟨he, hf⟩ := h2 i hl
    rw [hr, hc] at he hf
    have hv : startVal + 1 + (i : Int) = startVal + (i : Int) + 1 := by ring
    rw [hv] at he
    exact ⟨he, hf⟩
  · have hf := h3 hlt
    rw [hr, hc] at hf
    exact hf

/-! ### Pointwise and membership lemmas for the grid mutation helpers -/

theorem allCells_cons (row : TableRow) (rest : List TableRow) :
    allCells (row :: rest) = row.cells ++ allCells rest := by
  simp [allCells]

theorem getCell_mapAllCells (f : CellObject → CellObject)
    (hfc : ∀ cell, (f cell).columnIndex = cell.columnIndex)
    (rows : List TableRow) (r c : Int) :
    getCell (mapAllCells f rows) r c = (getCell rows r c).map f := by
  unfold getCell mapAllCells
  rw [List.find?_map]
  have hp : ((fun row : TableRow => (decide (row.rowIndex = r))) ∘
      fun row : TableRow => { row with cells := row.cells.map f }) =
      fun row : TableRow => decide (row.rowIndex = r) := rfl
  rw [hp]
  cases hfind : rows.find? fun row => row.rowIndex = r with
  | none => simp
  | some row =>
    simp only [Option.map_some', Option.some_bind]
    rw [List.find?_map]
    have hq : ((fun cell : CellObject => (decide (cell.columnIndex = c))) ∘ f) =
        fun cell : CellObject => decide (cell.columnIndex = c) := by
      funext cell
      simp [hfc]
    rw [hq]

theorem allCells_mapAllCells (f : CellObject → CellObject) (rows : List TableRow) :
    allCells (mapAllCells f rows) = (allCells rows).map f := by
  unfold allCells mapAllCells
  rw [List.map_map, List.map_flatten, List.map_map]
  rfl

theorem mapAllCells_mapAllCells (f g : CellObject → CellObject) (rows : List TableRow) :
    mapAllCells f (mapAllCells g rows) = mapAllCells (fun cell => f (g cell)) rows := by
  unfold mapAllCells
  rw [List.map_map]
  simp [List.map_map]

theorem mapAllCells_congr {f g : CellObject → CellObject} (h : ∀ cell, f cell = g cell)
    (rows : List TableRow) : mapAllCells f rows = mapAllCells g rows := by
  unfold mapAllCells
  exact List.map_congr_left fun row _ => by rw [show f = g from funext h]

theorem mapAllCells_id (rows : List TableRow) : mapAllCells (fun cell => cell) rows = rows := by
  unfold mapAllCells
  simp

theorem getCell_mem {rows : List TableRow} {r c : Int} {t : CellObject}
    (h : getCell rows r c = some t) : t ∈ allCells rows := by
  unfold getCell at h
  cases hfind : rows.find? fun row => row.rowIndex = r with
  | none => rw [hfind] at h; simp at h
  | some row =>
    rw [hfind] at h
    simp only [Option.some_bind] at h
    have hrow := List.mem_of_find?_eq_some hfind
    have hcell := List.mem_of_find?_eq_some h
    unfold allCells
    rw [List.mem_flatten]
    exact ⟨row.cells, List.mem_map_of_mem TableRow.cells hrow, hcell⟩

theorem getCell_cons (row : TableRow) (rest : List TableRow) (r c : Int) :
    getCell (row :: rest) r c =
      if row.rowIndex = r then row.cells.find? (fun cell => cell.columnIndex = c)
      else getCell rest r c := by
  unfold getCell
  by_cases h : row.rowIndex = r
  · rw [List.find?_cons_of_pos _ (by simp [h]), if_pos h]
    simp
  · rw [List.find?_cons_of_neg _ (by simp [h]), if_neg h]

theorem find?_updateCellInCells (cells : List CellObject) (cv c2 : Int)
    (f : CellObject → CellObject)
    (hfc : ∀ cell, (f cell).columnIndex = cell.columnIndex) :
    (updateCellInCells cells cv f).find? (fun cell => cell.columnIndex = c2) =
      if c2 = cv then (cells.find? (fun cell => cell.columnIndex = cv)).map f
      else cells.find? fun cell => cell.columnIndex = c2 := by
  induction cells with
  | nil =>
    simp only [updateCellInCells, List.find?_nil, Option.map_none']
    rw [ite_self]
  | cons cell rest ih =>
    by_cases hc : cell.columnIndex = cv
    · simp only [updateCellInCells, if_pos hc]
      by_cases h2 : c2 = cv
      · subst h2
        rw [List.find?_cons_of_pos _ (by simp [hfc, hc]),
            List.find?_cons_of_pos _ (by simp [hc]), if_pos rfl]
        simp
      · rw [List.find?_cons_of_neg _ (by simp only [hfc, hc, decide_eq_true_eq]; omega),
            if_neg h2, List.find?_cons_of_neg _ (by simp only [hc, decide_eq_true_eq]; omega)]
    · simp only [updateCellInCells, if_neg hc]
      by_cases h2 : cell.columnIndex = c2
      · rw [List.find?_cons_of_pos _ (by simp [h2]), if_neg (by omega),
            List.find?_cons_of_pos _ (by simp [h2])]
      · rw [List.find?_cons_of_neg _ (by simp [h2]), ih]
        by_cases h3 : c2 = cv
        · rw [if_pos h3, if_pos h3, List.find?_cons_of_neg _ (by simp [hc])]
        · rw [if_neg h3, if_neg h3, List.find?_cons_of_neg _ (by simp [h2])]

theorem getCell_updateFirstCell (rows : List TableRow) (rv cv : Int)
    (f : CellObject → CellObject)
    (hfc : ∀ cell, (f cell).columnIndex = cell.columnIndex) (r2 c2 : Int) :
    getCell (updateFirstCell rows rv cv f) r2 c2 =
      if r2 = rv ∧ c2 = cv then (getCell rows rv cv).map f
      else getCell rows r2 c2 := by
  induction rows with
  | nil =>
    simp only [updateFirstCell, getCell, List.find?_nil, Option.none_bind, Option.map_none']
    rw [ite_self]
  | cons row rest ih =>
    by_cases hr : row.rowIndex = rv
    · simp only [updateFirstCell, if_pos hr, getCell_cons]
      rw [find?_updateCellInCells row.cells cv c2 f hfc]
      split_ifs <;> first | rfl | omega
    · simp only [updateFirstCell, if_neg hr, getCell_cons, ih]
      split_ifs <;> first | rfl | omega

theorem mem_updateCellInCells {x : CellObject} {cells : List CellObject} {cv : Int}
    {f : CellObject → CellObject} (h : x ∈ updateCellInCells cells cv f) :
    x ∈ cells ∨ ∃ t, cells.find? (fun cell => cell.columnIndex = cv) = some t ∧ x = f t := by
  induction cells with
  | nil => simp [updateCellInCells] at h
  | cons cell rest ih =>
    by_cases hc : cell.columnIndex = cv
    · simp only [updateCellInCells, if_pos hc] at h
      rcases List.mem_cons.mp h with h1 | h1
      · exact Or.inr ⟨cell, List.find?_cons_of_pos _ (by simp [hc]), h1⟩
      · exact Or.inl (List.mem_cons_of_mem _ h1)
    · simp only [updateCellInCells, if_neg hc] at h
      rcases List.mem_cons.mp h with h1 | h1
      · exact Or.inl (by simp [h1])
      · rcases ih h1 with h2 | ⟨t, ht, hx⟩
        · exact Or.inl (List.mem_cons_of_mem _ h2)
        · exact Or.inr ⟨t, by rw [List.find?_cons_of_neg _ (by simp [hc])]; exact ht, hx⟩

theorem mem_allCells_updateFirstCell {x : CellObject} {rows : List TableRow} {rv cv : Int}
    {f : CellObject → CellObject} (h : x ∈ allCells (updateFirstCell rows rv cv f)) :
    x ∈ allCells rows ∨ ∃ t, getCell rows rv cv = some t ∧ x = f t := by
  induction rows with
  | nil => simp [updateFirstCell, allCells] at h
  | cons row rest ih =>
    by_cases hr : row.rowIndex = rv
    · simp only [updateFirstCell, if_pos hr] at h
      rw [allCells_cons] at h
      rcases List.mem_append.mp h with h1 | h1
      · rcases mem_updateCellInCells h1 with h2 | ⟨t, ht, hx⟩
        · exact Or.inl (by rw [allCells_cons]; exact List.mem_append.mpr (Or.inl h2))
        · refine Or.inr ⟨t, ?_, hx⟩
          unfold getCell
          rw [List.find?_cons_of_pos _ (by simp [hr])]
          simpa using ht
      · exact Or.inl (by rw [allCells_cons]; exact List.mem_append.mpr (Or.inr h1))
    · simp only [updateFirstCell, if_neg hr] at h
      rw [allCells_cons] at h
      rcases List.mem_append.mp h with h1 | h1
      · exact Or.inl (by rw [allCells_cons]; exact List.mem_append.mpr (Or.inl h1))
      · rcases ih h1 with h2 | ⟨t, ht, hx⟩
        · exact Or.inl (by rw [allCells_cons]; exact List.mem_append.mpr (Or.inr h2))
        · refine Or.inr ⟨t, ?_, hx⟩
          unfold getCell
          rw [List.find?_cons_of_neg _ (by simp [hr])]
          exact ht

/-! ### The dissolve loop as a cell-wise map -/

theorem listAny_congr {α : Type} {l : List α} {f g : α → Bool} (h : ∀ a ∈ l, f a = g a) :
    l.any f = l.any g := by
  induction l with
  | nil => rfl
  | cons a rest ih =>
    simp only [List.any_cons, h a (by simp), ih fun b hb => h b (by simp [hb])]

theorem dissolvedIds_cons (rows : List TableRow) (p : Int × Int) (rest : List (Int × Int))
    (m : String) :
    dissolvedIds rows (p :: rest) m =
      ((match getCell rows p.1 p.2 with
        | none => false
        | some cell => decide (cell.isMerged = true ∧ cell.mergeId = m)) ||
        dissolvedIds rows rest m) := by
  simp only [dissolvedIds, List.any_cons]

theorem dissolvedIds_clearGroup (rows : List TableRow) (rest : List (Int × Int))
    (m0 m : String) (hm : m ≠ m0) :
    dissolvedIds (clearMergeGroup m0 rows) rest m = dissolvedIds rows rest m := by
  unfold dissolvedIds
  refine listAny_congr fun p _ => ?_
  rw [show clearMergeGroup m0 rows = mapAllCells (fun c2 =>
      if c2.mergeId = m0 then { c2 with isMerged := false, mergeId := "" } else c2) rows
    from rfl]
  rw [getCell_mapAllCells _ (fun cell => by split_ifs <;> rfl)]
  cases hq : getCell rows p.1 p.2 with
  | none => rfl
  | some cq =>
    simp only [Option.map_some']
    by_cases hcq : cq.mergeId = m0
    · rw [if_pos hcq]
      simp only [decide_eq_decide]
      constructor
      · rintro ⟨h1, -⟩
        exact absurd h1 (by simp)
      · rintro ⟨-, h2⟩
        exact absurd (h2.symm.trans hcq) hm
    · rw [if_neg hcq]

theorem dissolveRectangle_eq (rect : List (Int × Int)) :
    ∀ rows : List TableRow,
      dissolveRectangle rows rect = mapAllCells (dissolveFun rows rect) rows := by
  induction rect with
  | nil =>
    intro rows
    have h1 : mapAllCells (dissolveFun rows []) rows = mapAllCells (fun cell => cell) rows :=
      mapAllCells_congr (fun cell => by simp [dissolveFun, dissolvedIds]) rows
    rw [show dissolveRectangle rows [] = rows from rfl, h1, mapAllCells_id]
  | cons p rest ih =>
    intro rows
    have hstep : dissolveRectangle rows (p :: rest) =
        dissolveRectangle (match getCell rows p.1 p.2 with
          | none => rows
          | some cell =>
            if cell.isMerged = true ∧ cell.mergeId ≠ "" then clearMergeGroup cell.mergeId rows
            else rows) rest := by
      simp only [dissolveRectangle, List.foldl_cons]
    rw [hstep]
    cases hq : getCell rows p.1 p.2 with
    | none =>
      dsimp only
      rw [ih]
      apply mapAllCells_congr
      intro cell
      unfold dissolveFun
      rw [dissolvedIds_cons, hq]
      simp
    | some cq =>
      dsimp only
      by_cases hcq : cq.isMerged = true ∧ cq.mergeId ≠ ""
      · rw [if_pos hcq, ih]
        rw [show clearMergeGroup cq.mergeId rows = mapAllCells (fun c2 =>
            if c2.mergeId = cq.mergeId then { c2 with isMerged := false, mergeId := "" } else c2)
            rows from rfl]
        rw [mapAllCells_mapAllCells]
        apply mapAllCells_congr
        intro x
        by_cases hx : x.mergeId = cq.mergeId
        · rw [if_pos hx]
          unfold dissolveFun
          have hcond : (x.mergeId ≠ "" ∧ dissolvedIds rows (p :: rest) x.mergeId = true) := by
            refine ⟨by simpa [hx] using hcq.2, ?_⟩
            rw [dissolvedIds_cons, hq]
            simp [hcq.1, hx]
          rw [if_neg (by simp), if_pos hcond]
        · rw [if_neg hx]
          unfold dissolveFun
          have hdc := dissolvedIds_clearGroup rows rest cq.mergeId x.mergeId hx
          rw [show clearMergeGroup cq.mergeId rows = mapAllCells (fun c2 =>
              if c2.mergeId = cq.mergeId then { c2 with isMerged := false, mergeId := "" }
              else c2) rows from rfl] at hdc
          rw [hdc, dissolvedIds_cons, hq]
          have hne : ¬(cq.isMerged = true ∧ cq.mergeId = x.mergeId) := by
            rintro ⟨-, h2⟩
            exact hx h2.symm
          simp only [decide_eq_false_iff_not.mpr hne, Bool.false_or]
      · rw [if_neg hcq, ih]
        apply mapAllCells_congr
        intro x
        unfold dissolveFun
        rw [dissolvedIds_cons, hq]
        by_cases hx : x.mergeId = ""
        · simp [hx]
        · have hne : ¬(cq.isMerged = true ∧ cq.mergeId = x.mergeId) := by
            rintro ⟨h1, h2⟩
            exact hcq ⟨h1, fun he => hx (by rw [← h2, he])⟩
          simp only [decide_eq_false_iff_not.mpr hne, Bool.false_or]

/-! ### The assignment loop, rectangle membership, and merge post-state -/

theorem assignMerged_idem (tl : CellObject) (mid : String) (x : CellObject) :
    assignMerged tl mid (assignMerged tl mid x) = assignMerged tl mid x := rfl

theorem getCell_assignRectangle (tl : CellObject) (mid : String) (rect : List (Int × Int)) :
    ∀ (rows : List TableRow) (r2 c2 : Int),
      getCell (assignRectangle rows rect tl mid) r2 c2 =
        if (r2, c2) ∈ rect then (getCell rows r2 c2).map (assignMerged tl mid)
        else getCell rows r2 c2 := by
  induction rect with
  | nil =>
    intro rows r2 c2
    simp [assignRectangle]
  | cons p rest ih =>
    intro rows r2 c2
    have hstep : assignRectangle rows (p :: rest) tl mid =
        assignRectangle (updateFirstCell rows p.1 p.2 (assignMerged tl mid)) rest tl mid := by
      simp only [assignRectangle, List.foldl_cons]
    rw [hstep, ih,
        getCell_updateFirstCell rows p.1 p.2 (assignMerged tl mid) (fun cell => rfl) r2 c2]
    by_cases h1 : (r2, c2) ∈ rest
    · rw [if_pos h1, if_pos (List.mem_cons_of_mem _ h1)]
      by_cases h2 : r2 = p.1 ∧ c2 = p.2
      · obtain ⟨hr, hc⟩ := h2
        subst hr hc
        rw [if_pos ⟨rfl, rfl⟩, Option.map_map]
        congr 1
      · rw [if_neg h2]
    · rw [if_neg h1]
      by_cases h2 : r2 = p.1 ∧ c2 = p.2
      · obtain ⟨hr, hc⟩ := h2
        subst hr hc
        rw [if_pos ⟨rfl, rfl⟩, if_pos (by simp)]
      · rw [if_neg h2, if_neg (by
          rw [List.mem_cons]
          rintro (h3 | h3)
          · exact h2 (by rw [Prod.ext_iff] at h3; exact ⟨h3.1, h3.2⟩)
          · exact h1 h3)]

theorem mem_allCells_assignRectangle {tl : CellObject} {mid : String}
    {rect : List (Int × Int)} :
    ∀ {rows : List TableRow} {x : CellObject},
      x ∈ allCells (assignRectangle rows rect tl mid) →
      x ∈ allCells rows ∨ ∃ t, x = assignMerged tl mid t := by
  induction rect with
  | nil =>
    intro rows x h
    exact Or.inl h
  | cons p rest ih =>
    intro rows x h
    rw [show assignRectangle rows (p :: rest) tl mid =
        assignRectangle (updateFirstCell rows p.1 p.2 (assignMerged tl mid)) rest tl mid
      from by simp only [assignRectangle, List.foldl_cons]] at h
    rcases ih h with h1 | h1
    · rcases mem_allCells_updateFirstCell h1 with h2 | ⟨t, _, hx⟩
      · exact Or.inl h2
      · exact Or.inr ⟨t, hx⟩
    · exact Or.inr h1

theorem mem_intRange {a lo hi : Int} : a ∈ intRange lo hi ↔ lo ≤ a ∧ a ≤ hi := by
  unfold intRange
  simp only [List.mem_map, List.mem_range]
  constructor
  · rintro ⟨i, hi2, rfl⟩
    omega
  · rintro ⟨h1, h2⟩
    exact ⟨(a - lo).toNat, by omega, by omega⟩

theorem intRange_length (lo hi : Int) : (intRange lo hi).length = (hi + 1 - lo).toNat := by
  simp [intRange]

theorem mem_rectanglePositions {r c minRow maxRow minCol maxCol : Int} :
    (r, c) ∈ rectanglePositions minRow maxRow minCol maxCol ↔
      minRow ≤ r ∧ r ≤ maxRow ∧ minCol ≤ c ∧ c ≤ maxCol := by
  unfold rectanglePositions
  simp only [List.mem_flatMap, List.mem_map, Prod.mk.injEq]
  constructor
  · rintro ⟨r0, hr0, c0, hc0, h1, h2⟩
    subst h1 h2
    rw [mem_intRange] at hr0
    rw [mem_intRange] at hc0
    exact ⟨hr0.1, hr0.2, hc0.1, hc0.2⟩
  · rintro ⟨h1, h2, h3, h4⟩
    exact ⟨r, mem_intRange.mpr ⟨h1, h2⟩, c, mem_intRange.mpr ⟨h3, h4⟩, rfl, rfl⟩

theorem dissolveFun_columnIndex (rows : List TableRow) (rect : List (Int × Int))
    (cell : CellObject) : (dissolveFun rows rect cell).columnIndex = cell.columnIndex := by
  unfold dissolveFun
  split_ifs <;> rfl

theorem dissolveFun_fields (rows : List TableRow) (rect : List (Int × Int))
    (cell : CellObject) :
    (dissolveFun rows rect cell).sequenceNumber = cell.sequenceNumber ∧
    (dissolveFun rows rect cell).isBlocked = cell.isBlocked ∧
    (dissolveFun rows rect cell).isBlank = cell.isBlank ∧
    (dissolveFun rows rect cell).rowIndex = cell.rowIndex := by
  unfold dissolveFun
  split_ifs <;> exact ⟨rfl, rfl, rfl, rfl⟩

theorem assignMerged_dissolveFun (rows : List TableRow) (rect : List (Int × Int))
    (tl : CellObject) (mid : String) (x : CellObject) :
    assignMerged (dissolveFun rows rect tl) mid (dissolveFun rows rect x) =
      assignMerged tl mid x := by
  unfold assignMerged dissolveFun
  split_ifs <;> rfl

/-- The valid branch of `mergeCells`, extracted: with at least 2 selected
cells, a valid rectangle and an existing top-left cell, the result is the
dissolve pass followed by the assignment pass, with the selection cleared. -/
theorem mergeCells_valid_rows (rows : List TableRow) (spans : String → Option MergeSpanInfo)
    (sel : Selection) (mode : Bool) (tl : CellObject)
    (hlen : 2 ≤ sel.length)
    (hv : isValidRect rows spans sel (selMinRow sel) (selMaxRow sel)
      (selMinCol sel) (selMaxCol sel) = true)
    (htl : getCell rows (selMinRow sel) (selMinCol sel) = some tl) :
    mergeCells rows spans sel mode =
      ⟨assignRectangle
        (dissolveRectangle rows (rectanglePositions (selMinRow sel) (selMaxRow sel)
          (selMinCol sel) (selMaxCol sel)))
        (rectanglePositions (selMinRow sel) (selMaxRow sel) (selMinCol sel) (selMaxCol sel))
        (dissolveFun rows (rectanglePositions (selMinRow sel) (selMaxRow sel)
          (selMinCol sel) (selMaxCol sel)) tl)
        (createMergeId (selMinRow sel) (selMinCol sel) (selMaxRow sel) (selMaxCol sel)),
       [], false, none⟩ := by
  have hdg : getCell (dissolveRectangle rows (rectanglePositions (selMinRow sel)
      (selMaxRow sel) (selMinCol sel) (selMaxCol sel))) (selMinRow sel) (selMinCol sel) =
      some (dissolveFun rows (rectanglePositions (selMinRow sel) (selMaxRow sel)
        (selMinCol sel) (selMaxCol sel)) tl) := by
    rw [dissolveRectangle_eq,
        getCell_mapAllCells _ (fun cell => dissolveFun_columnIndex _ _ cell), htl,
        Option.map_some']
  simp only [mergeCells]
  rw [if_neg (by omega), if_neg (not_not_intro hv), hdg]

/-! ### Preservation of the propagation invariant -/

theorem sameFields_refl (a : CellObject) : sameFields a a := ⟨rfl, rfl, rfl⟩

theorem mergeFlagInv_of_members {rows2 rows : List TableRow}
    (h : ∀ x ∈ allCells rows2, ∃ y ∈ allCells rows,
      x.isMerged = y.isMerged ∧ x.mergeId = y.mergeId)
    (hflag : MergeFlagInv rows) : MergeFlagInv rows2 := by
  intro x hx
  obtain ⟨y, hy, hm, hid⟩ := h x hx
  rw [hm, hid]
  exact hflag y hy

/-- Core lemma for the propagating mutations: setting a field on the located
cell and then writing the same field to every cell sharing the target's
non-empty merge id preserves the propagation invariant. -/
theorem groupConsistent_propagate (rows : List TableRow) (rv cv : Int)
    (f : CellObject → CellObject) (t : CellObject)
    (ht : getCell rows rv cv = some t)
    (hm : t.mergeId ≠ "")
    (hfid : ∀ x, (f x).mergeId = x.mergeId)
    (hff : ∀ x, f (f x) = f x)
    (hfs : ∀ a b, sameFields a b → sameFields (f a) (f b))
    (hcons : GroupConsistent rows) :
    GroupConsistent (mapAllCells (fun x => if x.mergeId = t.mergeId then f x else x)
      (updateFirstCell rows rv cv f)) := by
  intro x2 hx2 y2 hy2 hshare hne
  rw [allCells_mapAllCells] at hx2 hy2
  obtain ⟨x1, hx1, hx2eq⟩ := List.mem_map.mp hx2
  obtain ⟨y1, hy1, hy2eq⟩ := List.mem_map.mp hy2
  have hgid : ∀ z : CellObject,
      ((fun x => if x.mergeId = t.mergeId then f x else x) z).mergeId = z.mergeId := by
    intro z
    show (if z.mergeId = t.mergeId then f z else z).mergeId = z.mergeId
    by_cases hz : z.mergeId = t.mergeId
    · rw [if_pos hz, hfid]
    · rw [if_neg hz]
  have hxid : x2.mergeId = x1.mergeId := by rw [← hx2eq, hgid]
  have hyid : y2.mergeId = y1.mergeId := by rw [← hy2eq, hgid]
  have htmem : t ∈ allCells rows := getCell_mem ht
  by_cases hcase : x2.mergeId = t.mergeId
  · -- both cells belong to the propagated group: each is an `f`-image of a
    -- grid cell carrying the target's merge id
    have key : ∀ (z1 z2 : CellObject), z1 ∈ allCells (updateFirstCell rows rv cv f) →
        z2 = (fun x => if x.mergeId = t.mergeId then f x else x) z1 →
        z2.mergeId = t.mergeId →
        ∃ a ∈ allCells rows, a.mergeId = t.mergeId ∧ z2 = f a := by
      intro z1 z2 hz1 hz2 hzid
      have hz1id : z1.mergeId = t.mergeId := by rw [← hgid z1, ← hz2, hzid]
      rcases mem_allCells_updateFirstCell hz1 with ha | ⟨t0, ht0, hz1eq⟩
      · refine ⟨z1, ha, hz1id, ?_⟩
        rw [hz2]
        show (if z1.mergeId = t.mergeId then f z1 else z1) = f z1
        rw [if_pos hz1id]
      · obtain rfl : t = t0 := Option.some.inj (ht.symm.trans ht0)
        refine ⟨t, htmem, rfl, ?_⟩
        rw [hz2, hz1eq]
        show (if (f t).mergeId = t.mergeId then f (f t) else f t) = f t
        rw [if_pos (hfid t), hff]
    obtain ⟨a, hamem, haid, hxa⟩ := key x1 x2 hx1 hx2eq.symm hcase
    obtain ⟨b, hbmem, hbid, hyb⟩ := key y1 y2 hy1 hy2eq.symm (hshare ▸ hcase)
    rw [hxa, hyb]
    exact hfs a b (hcons a hamem b hbmem (haid.trans hbid.symm) (haid.symm ▸ hm))
  · -- both cells are outside the propagated group and outside the update:
    -- they are unchanged grid cells
    have key : ∀ (z1 z2 : CellObject), z1 ∈ allCells (updateFirstCell rows rv cv f) →
        z2 = (fun x => if x.mergeId = t.mergeId then f x else x) z1 →
        z2.mergeId ≠ t.mergeId →
        z2 ∈ allCells rows ∧ z2 = z1 := by
      intro z1 z2 hz1 hz2 hzid
      have hz1id : z1.mergeId ≠ t.mergeId := by rw [← hgid z1, ← hz2]; exact hzid
      have hz2z1 : z2 = z1 := by
        rw [hz2]
        show (if z1.mergeId = t.mergeId then f z1 else z1) = z1
        rw [if_neg hz1id]
      rcases mem_allCells_updateFirstCell hz1 with ha | ⟨t0, ht0, hz1eq⟩
      · exact ⟨hz2z1 ▸ ha, hz2z1⟩
      · exfalso
        obtain rfl : t = t0 := Option.some.inj (ht.symm.trans ht0)
        apply hz1id
        rw [hz1eq, hfid]
    obtain ⟨hxmem, -⟩ := key x1 x2 hx1 hx2eq.symm hcase
    obtain ⟨hymem, -⟩ := key y1 y2 hy1 hy2eq.symm (hshare ▸ hcase)
    exact hcons x2 hxmem y2 hymem hshare hne

/-- Core lemma for the non-propagating branch: when the located target cell
carries the empty merge id, updating it alone preserves the propagation
invariant. -/
theorem groupConsistent_update_empty (rows : List TableRow) (rv cv : Int)
    (f : CellObject → CellObject) (t : CellObject)
    (ht : getCell rows rv cv = some t)
    (hm : t.mergeId = "")
    (hfid : ∀ x, (f x).mergeId = x.mergeId)
    (hcons : GroupConsistent rows) :
    GroupConsistent (updateFirstCell rows rv cv f) := by
  intro x hx y hy hshare hne
  have key : ∀ z ∈ allCells (updateFirstCell rows rv cv f),
      z.mergeId ≠ "" → z ∈ allCells rows := by
    intro z hz hzne
    rcases mem_allCells_updateFirstCell hz with ha | ⟨t0, ht0, hzeq⟩
    · exact ha
    · exfalso
      have ht0' : t0 = t := by rw [ht0] at ht; exact Option.some.inj ht
      subst ht0'
      exact hzne (by rw [hzeq, hfid, hm])
  exact hcons x (key x hx hne) y (key y hy (hshare ▸ hne)) hshare hne

/-- Merge-flag preservation for the same mutation shape: when `f` preserves
`isMerged` and `mergeId`, both the single-cell update and the group
propagation keep the data-model invariant. -/
theorem mergeFlagInv_propagate (rows : List TableRow) (rv cv : Int)
    (f : CellObject → CellObject)
    (hfid : ∀ x, (f x).mergeId = x.mergeId)
    (hfm : ∀ x, (f x).isMerged = x.isMerged)
    (hflag : MergeFlagInv rows) (m : String) :
    MergeFlagInv (mapAllCells (fun x => if x.mergeId = m then f x else x)
      (updateFirstCell rows rv cv f)) ∧
    MergeFlagInv (updateFirstCell rows rv cv f) := by
  have h1 : MergeFlagInv (updateFirstCell rows rv cv f) := by
    refine mergeFlagInv_of_members (fun x hx => ?_) hflag
    rcases mem_allCells_updateFirstCell hx with ha | ⟨t0, ht0, hxeq⟩
    · exact ⟨x, ha, rfl, rfl⟩
    · exact ⟨t0, getCell_mem ht0, by rw [hxeq, hfm], by rw [hxeq, hfid]⟩
  refine ⟨mergeFlagInv_of_members (fun x hx => ?_) h1, h1⟩
  rw [allCells_mapAllCells] at hx
  obtain ⟨x1, hx1, hxeq⟩ := List.mem_map.mp hx
  by_cases hz : x1.mergeId = m
  · exact ⟨x1, hx1, by rw [← hxeq]; simp only [if_pos hz, hfm], by
      rw [← hxeq]; simp only [if_pos hz, hfid]⟩
  · exact ⟨x1, hx1, by rw [← hxeq]; simp only [if_neg hz], by
      rw [← hxeq]; simp only [if_neg hz]⟩

/-- Invariant preservation through a left fold. -/
theorem foldl_preserves {α : Type} {P : List TableRow → Prop}
    {step : List TableRow → α → List TableRow}
    (h : ∀ g a, P g → P (step g a)) :
    ∀ (l : List α) (g : List TableRow), P g → P (l.foldl step g) := by
  intro l
  induction l with
  | nil => intro g hg; exact hg
  | cons a rest ih => intro g hg; exact ih (step g a) (h g a hg)

/-- Clearing a merge group (conditional ungrouping map) preserves the
propagation invariant: the cleared cells leave every non-empty group and all
other cells are untouched. -/
theorem groupConsistent_clearGroup (rows : List TableRow) (m : String)
    (hcons : GroupConsistent rows) :
    GroupConsistent (mapAllCells (fun x =>
      if x.mergeId = m then { x with isMerged := false, mergeId := "" } else x) rows) := by
  intro x2 hx2 y2 hy2 hshare hne
  rw [allCells_mapAllCells] at hx2 hy2
  obtain ⟨x1, hx1, hxeq⟩ := List.mem_map.mp hx2
  obtain ⟨y1, hy1, hyeq⟩ := List.mem_map.mp hy2
  have key : ∀ z1 z2 : CellObject,
      (if z1.mergeId = m then { z1 with isMerged := false, mergeId := "" } else z1) = z2 →
      z2.mergeId ≠ "" → z2 = z1 := by
    intro z1 z2 hz hzne
    by_cases h : z1.mergeId = m
    · exfalso
      apply hzne
      rw [← hz, if_pos h]
    · rw [← hz, if_neg h]
  have hx21 : x2 = x1 := key x1 x2 hxeq hne
  have hy21 : y2 = y1 := key y1 y2 hyeq (hshare ▸ hne)
  subst hx21 hy21
  exact hcons x2 hx1 y2 hy1 hshare hne

theorem handleCellValueChange_consistent (rows : List TableRow) (r c : Int) (v : String)
    (hcons : GroupConsistent rows) : GroupConsistent (handleCellValueChange rows r c v) := by
  unfold handleCellValueChange
  cases ht : getCell rows r c with
  | none => exact hcons
  | some t =>
    dsimp only
    split_ifs with hm
    · exact groupConsistent_propagate rows r c _ t ht hm (fun x => rfl) (fun x => rfl)
        (fun a b h => ⟨rfl, h.2.1, h.2.2⟩) hcons
    · exact groupConsistent_update_empty rows r c _ t ht (not_not.mp hm) (fun x => rfl) hcons

theorem handleCheckboxChange_consistent (rows : List TableRow) (r c : Int)
    (hcons : GroupConsistent rows) : GroupConsistent (handleCheckboxChange rows r c) := by
  unfold handleCheckboxChange
  cases ht : getCell rows r c with
  | none => exact hcons
  | some t =>
    dsimp only
    split_ifs with hm
    · exact groupConsistent_propagate rows r c _ t ht hm (fun x => rfl) (fun x => rfl)
        (fun a b h => ⟨h.1, rfl, h.2.2⟩) hcons
    · exact groupConsistent_update_empty rows r c _ t ht (not_not.mp hm) (fun x => rfl) hcons

theorem unmergeCells_consistent (sel : Selection) (rows : List TableRow)
    (hcons : GroupConsistent rows) : GroupConsistent (unmergeCells sel rows) := by
  cases sel with
  | nil => exact hcons
  | cons p rest =>
    obtain ⟨r, c⟩ := p
    unfold unmergeCells
    dsimp only
    cases ht : getCell rows r c with
    | none => exact hcons
    | some t =>
      dsimp only
      split_ifs with hm
      · exact groupConsistent_clearGroup rows t.mergeId hcons
      · exact hcons

theorem setBlankStep_consistent (spans : String → Option MergeSpanInfo) (b : Bool)
    (rows : List TableRow) (p : Int × Int)
    (hcons : GroupConsistent rows) : GroupConsistent (setBlankStep spans b rows p) := by
  unfold setBlankStep
  cases ht : getCell rows p.1 p.2 with
  | none => exact hcons
  | some t =>
    dsimp only
    split_ifs with h1 h2
    · exact hcons
    · exact groupConsistent_propagate rows p.1 p.2 _ t ht h2 (fun x => rfl) (fun x => rfl)
        (fun a b2 h => ⟨h.1, h.2.1, rfl⟩) hcons
    · exact groupConsistent_update_empty rows p.1 p.2 _ t ht (not_not.mp h2)
        (fun x => rfl) hcons

theorem blankSelectedCells_consistent (sel : Selection)
    (spans : String → Option MergeSpanInfo) (rows : List TableRow)
    (hcons : GroupConsistent rows) : GroupConsistent (blankSelectedCells sel spans rows) := by
  unfold blankSelectedCells
  split_ifs
  · exact hcons
  · exact foldl_preserves (fun g a hg => setBlankStep_consistent spans true g a hg) sel rows
      hcons

theorem unblankSelectedCells_consistent (sel : Selection)
    (spans : String → Option MergeSpanInfo) (rows : List TableRow)
    (hcons : GroupConsistent rows) : GroupConsistent (unblankSelectedCells sel spans rows) := by
  unfold unblankSelectedCells
  split_ifs
  · exact hcons
  · exact foldl_preserves (fun g a hg => setBlankStep_consistent spans false g a hg) sel rows
      hcons

theorem autofillStep_preserves (rows : List TableRow) (fc : FillCell)
    (h : GroupConsistent rows ∧ MergeFlagInv rows) :
    GroupConsistent (autofillStep rows fc) ∧ MergeFlagInv (autofillStep rows fc) := by
  obtain ⟨hcons, hflag⟩ := h
  unfold autofillStep
  cases ht : getCell rows fc.row fc.col with
  | none => exact ⟨hcons, hflag⟩
  | some t =>
    dsimp only
    split_ifs with hcond
    · constructor
      · exact groupConsistent_propagate rows fc.row fc.col _ t ht hcond.2 (fun x => rfl)
          (fun x => rfl) (fun a b h2 => ⟨rfl, h2.2.1, h2.2.2⟩) hcons
      · exact (mergeFlagInv_propagate rows fc.row fc.col
          (fun x => { x with sequenceNumber := toString fc.value }) (fun x => rfl)
          (fun x => rfl) hflag t.mergeId).1
    · have hm : t.mergeId = "" := by
        by_contra hne
        exact hcond ⟨(hflag t (getCell_mem ht)).mpr hne, hne⟩
      constructor
      · exact groupConsistent_update_empty rows fc.row fc.col _ t ht hm (fun x => rfl) hcons
      · exact (mergeFlagInv_propagate rows fc.row fc.col
          (fun x => { x with sequenceNumber := toString fc.value }) (fun x => rfl)
          (fun x => rfl) hflag t.mergeId).2

theorem handleAutofillMouseUp_consistent (active : Bool) (sourceRow sourceCol : Int)
    (direction : Option Direction) (currentRow currentCol : Int)
    (rows : List TableRow) (spans : String → Option MergeSpanInfo)
    (hcons : GroupConsistent rows) (hflag : MergeFlagInv rows) :
    GroupConsistent (handleAutofillMouseUp active sourceRow sourceCol direction
      currentRow currentCol rows spans) := by
  unfold handleAutofillMouseUp
  by_cases ha : ¬active = true
  · rw [if_pos ha]
    exact hcons
  · rw [if_neg ha]
    dsimp only
    by_cases hl : (getAutofillCells rows spans sourceRow sourceCol
        (if direction = some .horizontal then sourceRow else currentRow)
        (if direction = some .vertical then sourceCol else currentCol) direction).length > 0
    · rw [if_pos hl]
      exact (foldl_preserves (fun g a hg => autofillStep_preserves g a hg) _ rows
        ⟨hcons, hflag⟩).1
    · rw [if_neg hl]
      exact hcons

/-- Merge preserves the propagation invariant provided every cell already
carrying the new rectangle-derived merge id belongs to a group dissolved by
the rectangle (no id collision with a surviving group). -/
theorem mergeCells_consistent (rows : List TableRow) (spans : String → Option MergeSpanInfo)
    (sel : Selection) (mode : Bool)
    (hcons : GroupConsistent rows)
    (hnc : ∀ x ∈ allCells rows,
      x.mergeId = createMergeId (selMinRow sel) (selMinCol sel) (selMaxRow sel)
        (selMaxCol sel) →
      dissolvedIds rows (rectanglePositions (selMinRow sel) (selMaxRow sel)
        (selMinCol sel) (selMaxCol sel)) x.mergeId = true) :
    GroupConsistent (mergeCells rows spans sel mode).rows := by
  by_cases h1 : sel.length < 2
  · simp only [mergeCells, if_pos h1]
    exact hcons
  · by_cases h2 : isValidRect rows spans sel (selMinRow sel) (selMaxRow sel)
      (selMinCol sel) (selMaxCol sel) = true
    · simp only [mergeCells, if_neg h1]
      rw [if_neg (not_not_intro h2)]
      cases htl : getCell (dissolveRectangle rows (rectanglePositions (selMinRow sel)
          (selMaxRow sel) (selMinCol sel) (selMaxCol sel))) (selMinRow sel) (selMinCol sel) with
      | none => exact hcons
      | some topLeft =>
        dsimp only
        set mid := createMergeId (selMinRow sel) (selMinCol sel) (selMaxRow sel) (selMaxCol sel)
          with hmid
        set rect := rectanglePositions (selMinRow sel) (selMaxRow sel) (selMinCol sel)
          (selMaxCol sel) with hrect
        have hsplit : ∀ z : CellObject,
            z ∈ allCells (assignRectangle (dissolveRectangle rows rect) rect topLeft mid) →
            z.mergeId ≠ "" →
            (∃ t0, z = assignMerged topLeft mid t0) ∨
            (z ∈ allCells rows ∧ ¬dissolvedIds rows rect z.mergeId = true) := by
          intro z hz hzne
          rcases mem_allCells_assignRectangle hz with hz1 | hz1
          · rw [dissolveRectangle_eq, allCells_mapAllCells] at hz1
            obtain ⟨w, hw, hweq⟩ := List.mem_map.mp hz1
            right
            unfold dissolveFun at hweq
            split_ifs at hweq with hc
            · exfalso
              apply hzne
              rw [← hweq]
            · subst hweq
              exact ⟨hw, fun hd => hc ⟨hzne, hd⟩⟩
          · exact Or.inl hz1
        intro x2 hx2 y2 hy2 hshare hne
        rcases hsplit x2 hx2 hne with ⟨t0, hx0⟩ | ⟨hxmem, hxnd⟩
        · rcases hsplit y2 hy2 (hshare ▸ hne) with ⟨t1, hy0⟩ | ⟨hymem, hynd⟩
          · rw [hx0, hy0]
            exact ⟨rfl, rfl, rfl⟩
          · exfalso
            apply hynd
            apply hnc y2 hymem
            rw [← hshare, hx0]
            rfl
        · rcases hsplit y2 hy2 (hshare ▸ hne) with ⟨t1, hy0⟩ | ⟨hymem, hynd⟩
          · exfalso
            apply hxnd
            apply hnc x2 hxmem
            rw [hshare, hy0]
            rfl
          · exact hcons x2 hxmem y2 hymem hshare hne
    · simp only [mergeCells, if_neg h1]
      rw [if_pos (by simpa using h2)]
      exact hcons

/-! ## Claims -/

/-- C1 counterexample: on a 2×2 grid whose top row is merged (cell (1,2) is
hidden), extending a drag-rectangle from (1,1) to (2,2) puts the hidden cell
(1,2) into the selection set, so the drag-rectangle operation does allow a
hidden cell's identifier to enter the set. -/
theorem dragSelection_admits_hidden_cell :
    (getCell hiddenDemoGrid 1 2).map
        (fun cell => isCellHidden cell (computeMergeSpans hiddenDemoGrid)) = some true ∧
    (1, 2) ∈ handleCellMouseEnterSelection true (some (1, 1)) [] [] 2 2 := by
  decide

/-- C1 amended: select-all puts only identifiers of non-hidden cells into the
selection, and a press or click adds at most the pressed cell (which is
rendered, hence non-hidden) to the prior selection; but the drag-rectangle
extension generates every id in the raw rectangle regardless of hidden status,
so a hidden cell's identifier can enter the set during a drag. -/
theorem selection_ops_nonhidden_except_drag
    (rows : List TableRow) (spans : String → Option MergeSpanInfo)
    (targetIsInput autofillActive shift isDragging mode ctrl allowed : Bool)
    (sel : Selection) (r c : Int) (p : Int × Int) :
    (p ∈ selectAllCellsSelection true rows spans sel →
      ∃ cell ∈ allCells rows,
        ¬isCellHidden cell spans ∧ p = (cell.rowIndex, cell.columnIndex)) ∧
    (p ∈ handleCellMouseDownSelection allowed targetIsInput autofillActive shift sel r c →
      p ∈ sel ∨ p = (r, c)) ∧
    (p ∈ handleCellClickSelection allowed isDragging mode ctrl sel r c →
      p ∈ sel ∨ p = (r, c)) := by
  refine ⟨fun h => ?_, fun h => ?_, fun h => ?_⟩
  · unfold selectAllCellsSelection at h
    simp only [Bool.not_true, if_neg] at h
    rcases mem_setUnion h with h1 | h1
    · simp at h1
    · rcases List.mem_filterMap.mp h1 with ⟨cell, hmem, hcell⟩
      refine ⟨cell, hmem, ?_⟩
      by_cases hh : isCellHidden cell spans
      · simp [hh] at hcell
      · simp [hh] at hcell
        exact ⟨hh, hcell.symm⟩
  · unfold handleCellMouseDownSelection at h
    split_ifs at h <;>
      first
        | exact Or.inl h
        | exact mem_setAdd h
        | exact Or.inr (List.mem_singleton.mp h)
  · unfold handleCellClickSelection at h
    split_ifs at h <;>
      first
        | exact Or.inl h
        | exact mem_setAdd h
        | exact Or.inl (List.mem_of_mem_filter h)
        | exact Or.inr (List.mem_singleton.mp h)

/-- Witness for C1 amended: applying the select-all clause on the demo grid
at the selected pair (1,1) yields a concrete non-hidden originating cell. -/
theorem selection_ops_nonhidden_except_drag_witness :
    ∃ cell ∈ allCells hiddenDemoGrid,
      ¬isCellHidden cell (computeMergeSpans hiddenDemoGrid) ∧
        ((1 : Int), (1 : Int)) = (cell.rowIndex, cell.columnIndex) :=
  (selection_ops_nonhidden_except_drag hiddenDemoGrid (computeMergeSpans hiddenDemoGrid)
    false false false false false false false [] 1 1 (1, 1)).1 (by decide)

/-- C2 counterexample: on a 2×2 grid whose top row is merged and fully
blocked, `totalCells` reports 4 and `blockedCells` reports 4 although only 3
cells are non-hidden, so both statistics count the hidden cell (1,2). -/
theorem statistics_count_hidden_cells :
    totalCells hiddenDemoGrid = 4 ∧
    blockedCells hiddenDemoGrid = 4 ∧
    ((allCells hiddenDemoGrid).filter
      fun cell => ¬isCellHidden cell (computeMergeSpans hiddenDemoGrid)).length = 3 := by
  decide

/-- C2 amended: only `mergedCells` and `blankCells` exclude hidden cells;
`totalCells` counts every cell of the grid, hidden ones included, and
`blockedCells` counts every blocked cell, hidden ones included. -/
theorem statistics_hidden_filtering (rows : List TableRow)
    (spans : String → Option MergeSpanInfo) :
    totalCells rows = (allCells rows).length ∧
    blockedCells rows = ((allCells rows).filter fun c => c.isBlocked).length ∧
    mergedCells rows spans =
      ((allCells rows).filter fun c => c.isMerged ∧ ¬isCellHidden c spans).length ∧
    blankCells rows spans =
      ((allCells rows).filter fun c => c.isBlank ∧ ¬isCellHidden c spans).length := by
  refine ⟨?_, ?_, ?_, ?_⟩
  · simpa using foldl_cells_length rows 0
  · simpa using foldl_filter_length (fun c => c.isBlocked) rows 0
  · simpa [mergedCells] using foldl_filter_length (fun c => c.isMerged ∧ ¬isCellHidden c spans) rows 0
  · simpa [blankCells] using foldl_filter_length (fun c => c.isBlank ∧ ¬isCellHidden c spans) rows 0

/-- C3: merge silently ignores selections of fewer than 2 cells (state
unchanged, no report); with at least 2 selected cells it succeeds only when
every cell id in the selection's bounding rectangle is either already selected
or a merged cell whose group's anchor is selected (`isValidRect`); when the
check fails it reports the non-rectangular-selection error with grid,
selection and selection mode all left unchanged — validation happens before
any mutation; when the check passes no error is reported and the selection is
cleared. -/
theorem mergeCells_validation (rows : List TableRow) (spans : String → Option MergeSpanInfo)
    (sel : Selection) (mode : Bool) :
    (sel.length < 2 → mergeCells rows spans sel mode = ⟨rows, sel, mode, none⟩) ∧
    (2 ≤ sel.length →
      ¬isValidRect rows spans sel (selMinRow sel) (selMaxRow sel)
        (selMinCol sel) (selMaxCol sel) →
      mergeCells rows spans sel mode =
        ⟨rows, sel, mode, some "Please select a rectangular area to merge"⟩) ∧
    (2 ≤ sel.length →
      isValidRect rows spans sel (selMinRow sel) (selMaxRow sel)
        (selMinCol sel) (selMaxCol sel) →
      (mergeCells rows spans sel mode).alertMsg = none ∧
      (mergeCells rows spans sel mode).selectedCells = [] ∧
      (mergeCells rows spans sel mode).isSelectionMode = false) := by
  refine ⟨fun h => ?_, fun h2 hv => ?_, fun h2 hv => ?_⟩
  · simp only [mergeCells, if_pos h]
  · simp only [mergeCells, if_neg (by omega : ¬sel.length < 2)]
    rw [if_pos hv]
  · simp only [mergeCells, if_neg (by omega : ¬sel.length < 2)]
    rw [if_neg (not_not_intro hv)]
    exact ⟨rfl, rfl, rfl⟩

/-- Witness for C3: on a fresh 3×3 grid the L-shaped selection
{(1,1),(1,2),(2,1)} is rejected with the non-rectangular error and the state
is unchanged, a single-cell selection is silently ignored, and the full 2×2
selection passes validation and clears the selection. -/
theorem mergeCells_validation_witness :
    mergeCells grid3x3 (computeMergeSpans grid3x3) [(1, 1), (1, 2), (2, 1)] true =
      ⟨grid3x3, [(1, 1), (1, 2), (2, 1)], true,
        some "Please select a rectangular area to merge"⟩ ∧
    mergeCells grid3x3 (computeMergeSpans grid3x3) [(1, 1)] true =
      ⟨grid3x3, [(1, 1)], true, none⟩ ∧
    (mergeCells grid3x3 (computeMergeSpans grid3x3) [(1, 1), (1, 2), (2, 1), (2, 2)] true).alertMsg
      = none :=
  ⟨(mergeCells_validation grid3x3 (computeMergeSpans grid3x3) [(1, 1), (1, 2), (2, 1)] true).2.1
      (by decide) (by decide),
   (mergeCells_validation grid3x3 (computeMergeSpans grid3x3) [(1, 1)] true).1 (by decide),
   ((mergeCells_validation grid3x3 (computeMergeSpans grid3x3)
      [(1, 1), (1, 2), (2, 1), (2, 2)] true).2.2 (by decide) (by decide)).1⟩

/-- Element lookup through `List.mapIdx`. -/
theorem mapIdx_getElem? {α β : Type} (f : Nat → α → β) (l : List α) (i : Nat)
    (hi : i < l.length) : (l.mapIdx f)[i]? = some (f i (l.get ⟨i, hi⟩)) := by
  rw [List.getElem?_eq_getElem (by simpa using hi)]
  have h2 := List.get_mapIdx l f i hi
  simp only [List.get_eq_getElem] at h2
  rw [h2]
  simp

/-- C9: loading a snapshot re-derives every cell's `rowIndex` and
`columnIndex` from its 1-based array position (the indices carried in the
snapshot are unconstrained), defaults a missing `isBlocked`/`isMerged`/
`isBlank` to `false` and a missing `sequenceNumber` to `"-"`; a snapshot with
non-positive row or column counts or malformed shape (missing fields, failed
parse) is rejected and the fallback instead creates a fresh default grid. -/
theorem loadTable_spec (t : RawTable) (trs : List RawRow) (r c : Int)
    (rowCount columnCount : Int) (data : Option RawTable) :
    (t.tableRows = some trs → t.rows = some r → t.columns = some c → 0 < r → 0 < c →
      ∃ out, loadTable (some t) = some out ∧ out.length = trs.length ∧
        (∀ i, ∀ hi : i < trs.length,
          ∃ outRow, out[i]? = some outRow ∧
            outRow.rowIndex = (i : Int) + 1 ∧
            outRow.cells.length = (trs.get ⟨i, hi⟩).cells.length ∧
            ∀ j, ∀ hj : j < (trs.get ⟨i, hi⟩).cells.length,
              ∃ outCell, outRow.cells[j]? = some outCell ∧
                outCell.rowIndex = (i : Int) + 1 ∧
                outCell.columnIndex = (j : Int) + 1 ∧
                (((trs.get ⟨i, hi⟩).cells.get ⟨j, hj⟩).sequenceNumber = none →
                  outCell.sequenceNumber = "-") ∧
                (((trs.get ⟨i, hi⟩).cells.get ⟨j, hj⟩).isBlocked = none →
                  outCell.isBlocked = false) ∧
                (((trs.get ⟨i, hi⟩).cells.get ⟨j, hj⟩).isMerged = none →
                  outCell.isMerged = false) ∧
                (((trs.get ⟨i, hi⟩).cells.get ⟨j, hj⟩).isBlank = none →
                  outCell.isBlank = false))) ∧
    (t.rows = some r → r ≤ 0 → loadTable (some t) = none) ∧
    (t.columns = some c → c ≤ 0 → loadTable (some t) = none) ∧
    (t.tableRows = none → loadTable (some t) = none) ∧
    (loadTable none = none) ∧
    (loadTable data = none →
      loadOrCreate data rowCount columnCount = createNewTable rowCount columnCount) := by
  obtain ⟨tRows, tCols, tTrs⟩ := t
  refine ⟨fun hts hr hc hr0 hc0 => ?_, fun hr hle => ?_, fun hc hle => ?_,
          fun hts => ?_, rfl, fun h => ?_⟩
  · simp only at hts hr hc
    subst hts hr hc
    refine ⟨trs.mapIdx fun idx row => validateRow ((idx : Int) + 1) row, ?_, by simp, ?_⟩
    · simp only [loadTable]
      rw [if_pos ⟨hr0, hc0⟩]
    · intro i hi
      refine ⟨validateRow ((i : Int) + 1) (trs.get ⟨i, hi⟩), mapIdx_getElem? _ trs i hi, rfl,
        by simp [validateRow], ?_⟩
      intro j hj
      refine ⟨validateCell ((i : Int) + 1) ((j : Int) + 1) ((trs.get ⟨i, hi⟩).cells.get ⟨j, hj⟩),
        ?_, rfl, rfl, ?_, ?_, ?_, ?_⟩
      · simpa [validateRow] using
          mapIdx_getElem? (fun cIdx cell => validateCell ((i : Int) + 1) ((cIdx : Int) + 1) cell)
            (trs.get ⟨i, hi⟩).cells j hj
      all_goals
        intro hnone
        simp only [List.get_eq_getElem] at hnone
        simp [validateCell, hnone]
  · simp only at hr
    subst hr
    cases tTrs <;> cases tCols <;> simp [loadTable]
    all_goals intros; omega
  · simp only at hc
    subst hc
    cases tTrs <;> cases tRows <;> simp [loadTable]
    all_goals intros; omega
  · simp only at hts
    subst hts
    simp [loadTable]
  · unfold loadOrCreate
    rw [h]

/-- Witness for C9: a snapshot whose single cell carries wrong indices and no
field values loads to positional indices (1,1) with all defaults, and a
snapshot with `rows: 0` is rejected so the fallback creates the default grid. -/
theorem loadTable_spec_witness :
    (∃ out, loadTable (some rawTableDemo) = some out ∧ out.length = 1 ∧
      ∃ outRow, out[0]? = some outRow ∧ outRow.rowIndex = 1 ∧
        ∃ outCell, outRow.cells[0]? = some outCell ∧
          outCell.rowIndex = 1 ∧ outCell.columnIndex = 1 ∧
          outCell.sequenceNumber = "-" ∧ outCell.isBlocked = false ∧
          outCell.isMerged = false ∧ outCell.isBlank = false) ∧
    loadOrCreate (some { rawTableDemo with rows := some 0 }) 3 3 = createNewTable 3 3 := by
  constructor
  · obtain ⟨out, hout, hlen, hrows⟩ :=
      (loadTable_spec rawTableDemo [⟨some 77, [rawCellDemo]⟩] 1 1 3 3 none).1
        rfl rfl rfl (by decide) (by decide)
    obtain ⟨outRow, hrow, hri, hclen, hcells⟩ := hrows 0 (by decide)
    obtain ⟨outCell, hcell, hcr, hcc, hseq, hbk, hmg, hbl⟩ := hcells 0 (by decide)
    exact ⟨out, hout, by simpa using hlen,
      outRow, hrow, hri, outCell, hcell, hcr, hcc,
      hseq (by decide), hbk (by decide), hmg (by decide), hbl (by decide)⟩
  · exact (loadTable_spec { rawTableDemo with rows := some 0 } [] 0 1 3 3
      (some { rawTableDemo with rows := some 0 })).2.2.2.2.2
      ((loadTable_spec { rawTableDemo with rows := some 0 } [] 0 1 3 3 none).2.1 rfl (by decide))

/-- C4: for every valid merge whose selection has bounding rectangle R (with
at least 2 selected cells and an existing top-left cell): the selection is
cleared; every cell inside R receives the top-left cell's `sequenceNumber`,
`isBlocked` and `isBlank`, is marked merged, and is assigned the same new
merge id derived deterministically from R's corner coordinates
(`assignMerged tl (createMergeId minRow minCol maxRow maxCol)`); and every
cell outside R is untouched unless its merge group is touched by R
(`dissolveFun`: a pre-existing group with a cell inside R is ungrouped
everywhere, its cells outside R included, clearing `isMerged` and setting
`mergeId` to the empty string). -/
theorem mergeCells_valid_effect (rows : List TableRow)
    (spans : String → Option MergeSpanInfo) (sel : Selection) (mode : Bool) (tl : CellObject)
    (hlen : 2 ≤ sel.length)
    (hv : isValidRect rows spans sel (selMinRow sel) (selMaxRow sel)
      (selMinCol sel) (selMaxCol sel) = true)
    (htl : getCell rows (selMinRow sel) (selMinCol sel) = some tl) :
    (mergeCells rows spans sel mode).selectedCells = [] ∧
    (mergeCells rows spans sel mode).isSelectionMode = false ∧
    (mergeCells rows spans sel mode).alertMsg = none ∧
    ∀ r c : Int,
      ((selMinRow sel ≤ r ∧ r ≤ selMaxRow sel ∧ selMinCol sel ≤ c ∧ c ≤ selMaxCol sel) →
        getCell (mergeCells rows spans sel mode).rows r c =
          (getCell rows r c).map (assignMerged tl
            (createMergeId (selMinRow sel) (selMinCol sel) (selMaxRow sel) (selMaxCol sel)))) ∧
      (¬(selMinRow sel ≤ r ∧ r ≤ selMaxRow sel ∧ selMinCol sel ≤ c ∧ c ≤ selMaxCol sel) →
        getCell (mergeCells rows spans sel mode).rows r c =
          (getCell rows r c).map (dissolveFun rows (rectanglePositions (selMinRow sel)
            (selMaxRow sel) (selMinCol sel) (selMaxCol sel)))) := by
  rw [mergeCells_valid_rows rows spans sel mode tl hlen hv htl]
  refine ⟨rfl, rfl, rfl, fun r c => ⟨fun hin => ?_, fun hout => ?_⟩⟩
  · show getCell (assignRectangle _ _ _ _) r c = _
    rw [getCell_assignRectangle, if_pos (mem_rectanglePositions.mpr hin),
        dissolveRectangle_eq,
        getCell_mapAllCells _ (fun cell => dissolveFun_columnIndex _ _ cell),
        Option.map_map]
    cases getCell rows r c with
    | none => rfl
    | some x =>
      simp only [Option.map_some', Function.comp_apply]
      rw [assignMerged_dissolveFun]
  · show getCell (assignRectangle _ _ _ _) r c = _
    rw [getCell_assignRectangle, if_neg (fun hmem => hout (mem_rectanglePositions.mp hmem)),
        dissolveRectangle_eq,
        getCell_mapAllCells _ (fun cell => dissolveFun_columnIndex _ _ cell)]

/-- Witness for C4: on the demo grid (first column merged as `"g"`, value
`"7"`), merging the selected top row clears the selection, assigns cell (1,2)
the top-left fields under the corner-derived id `"1112"`, and clears the
merge flags of cell (2,1) — a `"g"`-group cell lying outside the rectangle. -/
theorem mergeCells_valid_effect_witness :
    MergeOutcome.selectedCells
      (mergeCells mergeDemoGrid (computeMergeSpans mergeDemoGrid) [(1, 1), (1, 2)] true) = [] ∧
    getCell (mergeCells mergeDemoGrid (computeMergeSpans mergeDemoGrid)
        [(1, 1), (1, 2)] true).rows 1 2 =
      (getCell mergeDemoGrid 1 2).map
        (assignMerged (mkCell "7" false true "g" false 1 1) (createMergeId 1 1 1 2)) ∧
    getCell (mergeCells mergeDemoGrid (computeMergeSpans mergeDemoGrid)
        [(1, 1), (1, 2)] true).rows 2 1 =
      (getCell mergeDemoGrid 2 1).map
        (dissolveFun mergeDemoGrid (rectanglePositions 1 1 1 2)) := by
  obtain ⟨h1, h2, h3, h4⟩ := mergeCells_valid_effect mergeDemoGrid
    (computeMergeSpans mergeDemoGrid) [(1, 1), (1, 2)] true
    (mkCell "7" false true "g" false 1 1) (by decide) (by decide) (by decide)
  exact ⟨h1, (h4 1 2).1 (by decide), (h4 2 1).2 (by decide)⟩

/-- C5 counterexample: `collisionDemoGrid` satisfies the propagation
invariant (and the data-model invariant), yet merging its top 2×2 block — a
valid merge that reports no error — produces a grid violating the
propagation invariant: the new rectangle's corner-derived merge id `"1122"`
collides with an existing group the rectangle never touches, leaving cells
that share `"1122"` with different `sequenceNumber`s. -/
theorem merge_breaks_group_consistency :
    GroupConsistent collisionDemoGrid ∧
    MergeFlagInv collisionDemoGrid ∧
    (mergeCells collisionDemoGrid (computeMergeSpans collisionDemoGrid)
      [(1, 1), (1, 2), (2, 1), (2, 2)] true).alertMsg = none ∧
    ¬GroupConsistent (mergeCells collisionDemoGrid (computeMergeSpans collisionDemoGrid)
      [(1, 1), (1, 2), (2, 1), (2, 2)] true).rows := by
  decide

/-- C5 amended: starting from any state satisfying the propagation invariant
and the data-model invariant (`isMerged` iff non-empty `mergeId`), set-value,
toggle-block, unmerge, blank, unblank and autofill commit preserve the
propagation invariant unconditionally; merge preserves it provided every cell
already carrying the rectangle's new corner-derived merge id belongs to a
group dissolved by the rectangle (no collision with a surviving group). -/
theorem mutations_preserve_group_consistency
    (rows : List TableRow) (spans : String → Option MergeSpanInfo)
    (r c : Int) (v : String) (sel : Selection) (mode active : Bool)
    (sourceRow sourceCol currentRow currentCol : Int) (direction : Option Direction)
    (hcons : GroupConsistent rows) (hflag : MergeFlagInv rows) :
    GroupConsistent (handleCellValueChange rows r c v) ∧
    GroupConsistent (handleCheckboxChange rows r c) ∧
    GroupConsistent (unmergeCells sel rows) ∧
    GroupConsistent (blankSelectedCells sel spans rows) ∧
    GroupConsistent (unblankSelectedCells sel spans rows) ∧
    GroupConsistent (handleAutofillMouseUp active sourceRow sourceCol direction
      currentRow currentCol rows spans) ∧
    ((∀ x ∈ allCells rows,
        x.mergeId = createMergeId (selMinRow sel) (selMinCol sel) (selMaxRow sel)
          (selMaxCol sel) →
        dissolvedIds rows (rectanglePositions (selMinRow sel) (selMaxRow sel)
          (selMinCol sel) (selMaxCol sel)) x.mergeId = true) →
      GroupConsistent (mergeCells rows spans sel mode).rows) :=
  ⟨handleCellValueChange_consistent rows r c v hcons,
   handleCheckboxChange_consistent rows r c hcons,
   unmergeCells_consistent sel rows hcons,
   blankSelectedCells_consistent sel spans rows hcons,
   unblankSelectedCells_consistent sel spans rows hcons,
   handleAutofillMouseUp_consistent active sourceRow sourceCol direction currentRow
     currentCol rows spans hcons hflag,
   fun hnc => mergeCells_consistent rows spans sel mode hcons hnc⟩

/-- Witness for C5 amended: on the demo grid with merge group `"g"`, the
set-value mutation and a collision-free merge both preserve the propagation
invariant. -/
theorem mutations_preserve_group_consistency_witness :
    GroupConsistent (handleCellValueChange mergeDemoGrid 1 1 "9") ∧
    GroupConsistent (mergeCells mergeDemoGrid (computeMergeSpans mergeDemoGrid)
      [(1, 1), (1, 2)] true).rows := by
  obtain ⟨h1, h2, h3, h4, h5, h6, h7⟩ := mutations_preserve_group_consistency mergeDemoGrid
    (computeMergeSpans mergeDemoGrid) 1 1 "9" [(1, 1), (1, 2)] true false 0 0 0 0 none
    (by decide) (by decide)
  exact ⟨h1, h7 (by decide)⟩

/-- C6: for every grid, every source cell whose `sequenceNumber` parses as a
base-10 integer, every resolved direction and every target coordinate, the
computed autofill run is exactly the consecutive cells stepping from the
source toward the target along the active axis (`(dr, dc)` is the unit step
toward the target): the run is bounded by the distance to the target, its
i-th cell (i starting at 1) sits exactly i steps from the source, is fillable
(not missing, not blank, not hidden), and is assigned `sourceValue + i` — so
values increase outward also when the drag moves left or up; the run is
truncated exclusively at the first missing or unfillable cell; and the source
cell itself is never part of the run. -/
theorem getAutofillCells_run_spec (rows : List TableRow)
    (spans : String → Option MergeSpanInfo)
    (sourceRow sourceCol targetRow targetCol : Int) (dir : Direction) (src : CellObject)
    (dr dc : Int) (dist : Nat)
    (hsrc : getCell rows sourceRow sourceCol = some src)
    (hint : isInteger src.sequenceNumber = true)
    (hdr : dr = (match dir with
      | .horizontal => 0
      | .vertical => if targetRow > sourceRow then 1 else -1))
    (hdc : dc = (match dir with
      | .horizontal => if targetCol > sourceCol then 1 else -1
      | .vertical => 0))
    (hdist : dist = (match dir with
      | .horizontal => (targetCol - sourceCol).natAbs
      | .vertical => (targetRow - sourceRow).natAbs)) :
    (getAutofillCells rows spans sourceRow sourceCol targetRow targetCol (some dir)).length
      ≤ dist ∧
    (∀ i, i < (getAutofillCells rows spans sourceRow sourceCol targetRow targetCol
        (some dir)).length →
      (getAutofillCells rows spans sourceRow sourceCol targetRow targetCol (some dir))[i]? =
        some ⟨sourceRow + dr * ((i : Int) + 1), sourceCol + dc * ((i : Int) + 1),
          parseIntSeq src.sequenceNumber + (i : Int) + 1⟩ ∧
      fillableAt rows spans (sourceRow + dr * ((i : Int) + 1))
        (sourceCol + dc * ((i : Int) + 1)) = true ∧
      (sourceRow + dr * ((i : Int) + 1), sourceCol + dc * ((i : Int) + 1)) ≠
        (sourceRow, sourceCol)) ∧
    ((getAutofillCells rows spans sourceRow sourceCol targetRow targetCol (some dir)).length
        < dist →
      fillableAt rows spans
        (sourceRow + dr * (((getAutofillCells rows spans sourceRow sourceCol targetRow
          targetCol (some dir)).length : Int) + 1))
        (sourceCol + dc * (((getAutofillCells rows spans sourceRow sourceCol targetRow
          targetCol (some dir)).length : Int) + 1)) = false) := by
  cases dir with
  | horizontal =>
    have hdr2 : dr = 0 := by simpa using hdr
    have hdc2 : dc = if targetCol > sourceCol then 1 else -1 := by simpa using hdc
    have hdist2 : dist = (targetCol - sourceCol).natAbs := by simpa using hdist
    by_cases hgt : targetCol > sourceCol
    · rw [if_pos hgt] at hdc2
      subst hdr2 hdc2 hdist2
      have hga : getAutofillCells rows spans sourceRow sourceCol targetRow targetCol
          (some .horizontal) =
          fillWalk rows spans (parseIntSeq src.sequenceNumber) 0 1
            ((max sourceCol targetCol - sourceCol).toNat) 1 sourceRow (sourceCol + 1) := by
        simp only [getAutofillCells, hsrc, hint, not_true_eq_false, if_false]
        rw [if_pos hgt]
      rw [hga]
      have hsteps : (max sourceCol targetCol - sourceCol).toNat =
          (targetCol - sourceCol).natAbs := by
        rw [max_eq_right hgt.le]
        omega
      obtain ⟨h1, h2, h3⟩ := fillWalk_shift_spec rows spans (parseIntSeq src.sequenceNumber)
        0 1 ((max sourceCol targetCol - sourceCol).toNat) sourceRow sourceCol
        sourceRow (sourceCol + 1) (by ring) (by ring)
      refine ⟨by omega, fun i hl => ?_, fun hlt => h3 (by omega)⟩
      obtain ⟨he, hf⟩ := h2 i hl
      refine ⟨he, hf, fun hEq => ?_⟩
      rw [Prod.mk.injEq] at hEq
      omega
    · rw [if_neg hgt] at hdc2
      subst hdr2 hdc2 hdist2
      have hga : getAutofillCells rows spans sourceRow sourceCol targetRow targetCol
          (some .horizontal) =
          fillWalk rows spans (parseIntSeq src.sequenceNumber) 0 (-1)
            ((sourceCol - min sourceCol targetCol).toNat) 1 sourceRow (sourceCol - 1) := by
        simp only [getAutofillCells, hsrc, hint, not_true_eq_false, if_false]
        rw [if_neg hgt]
      rw [hga]
      have hsteps : (sourceCol - min sourceCol targetCol).toNat =
          (targetCol - sourceCol).natAbs := by
        rw [min_eq_right (by omega : targetCol ≤ sourceCol)]
        omega
      obtain ⟨h1, h2, h3⟩ := fillWalk_shift_spec rows spans (parseIntSeq src.sequenceNumber)
        0 (-1) ((sourceCol - min sourceCol targetCol).toNat) sourceRow sourceCol
        sourceRow (sourceCol - 1) (by ring) (by ring)
      refine ⟨by omega, fun i hl => ?_, fun hlt => h3 (by omega)⟩
      obtain ⟨he, hf⟩ := h2 i hl
      refine ⟨he, hf, fun hEq => ?_⟩
      rw [Prod.mk.injEq] at hEq
      omega
  | vertical =>
    have hdr2 : dr = if targetRow > sourceRow then 1 else -1 := by simpa using hdr
    have hdc2 : dc = 0 := by simpa using hdc
    have hdist2 : dist = (targetRow - sourceRow).natAbs := by simpa using hdist
    by_cases hgt : targetRow > sourceRow
    · rw [if_pos hgt] at hdr2
      subst hdr2 hdc2 hdist2
      have hga : getAutofillCells rows spans sourceRow sourceCol targetRow targetCol
          (some .vertical) =
          fillWalk rows spans (parseIntSeq src.sequenceNumber) 1 0
            ((max sourceRow targetRow - sourceRow).toNat) 1 (sourceRow + 1) sourceCol := by
        simp only [getAutofillCells, hsrc, hint, not_true_eq_false, if_false]
        rw [if_pos hgt]
      rw [hga]
      have hsteps : (max sourceRow targetRow - sourceRow).toNat =
          (targetRow - sourceRow).natAbs := by
        rw [max_eq_right hgt.le]
        omega
      obtain ⟨h1, h2, h3⟩ := fillWalk_shift_spec rows spans (parseIntSeq src.sequenceNumber)
        1 0 ((max sourceRow targetRow - sourceRow).toNat) sourceRow sourceCol
        (sourceRow + 1) sourceCol (by ring) (by ring)
      refine ⟨by omega, fun i hl => ?_, fun hlt => h3 (by omega)⟩
      obtain ⟨he, hf⟩ := h2 i hl
      refine ⟨he, hf, fun hEq => ?_⟩
      rw [Prod.mk.injEq] at hEq
      omega
    · rw [if_neg hgt] at hdr2
      subst hdr2 hdc2 hdist2
      have hga : getAutofillCells rows spans sourceRow sourceCol targetRow targetCol
          (some .vertical) =
          fillWalk rows spans (parseIntSeq src.sequenceNumber) (-1) 0
            ((sourceRow - min sourceRow targetRow).toNat) 1 (sourceRow - 1) sourceCol := by
        simp only [getAutofillCells, hsrc, hint, not_true_eq_false, if_false]
        rw [if_neg hgt]
      rw [hga]
      have hsteps : (sourceRow - min sourceRow targetRow).toNat =
          (targetRow - sourceRow).natAbs := by
        rw [min_eq_right (by omega : targetRow ≤ sourceRow)]
        omega
      obtain ⟨h1, h2, h3⟩ := fillWalk_shift_spec rows spans (parseIntSeq src.sequenceNumber)
        (-1) 0 ((sourceRow - min sourceRow targetRow).toNat) sourceRow sourceCol
        (sourceRow - 1) sourceCol (by ring) (by ring)
      refine ⟨by omega, fun i hl => ?_, fun hlt => h3 (by omega)⟩
      obtain ⟨he, hf⟩ := h2 i hl
      refine ⟨he, hf, fun hEq => ?_⟩
      rw [Prod.mk.injEq] at hEq
      omega

/-- Witness for C6: the spec's own example — source (1,1) holding `"5"`,
horizontal drag to (1,4) over fillable default cells — yields the run
(1,2)=6, (1,3)=7, (1,4)=8 as read off the characterization. -/
theorem getAutofillCells_run_spec_witness :
    (getAutofillCells autofillDemoGrid (computeMergeSpans autofillDemoGrid) 1 1 1 4
      (some .horizontal)).length ≤ 3 ∧
    (getAutofillCells autofillDemoGrid (computeMergeSpans autofillDemoGrid) 1 1 1 4
      (some .horizontal))[0]? = some ⟨1, 1 + 1 * ((0 : Int) + 1), 5 + (0 : Int) + 1⟩ := by
  obtain ⟨h1, h2, h3⟩ := getAutofillCells_run_spec autofillDemoGrid
    (computeMergeSpans autofillDemoGrid) 1 1 1 4 .horizontal
    (mkCell "5" false false "" false 1 1) 0 1 3 (by decide) (by decide)
    (by decide) (by decide) (by decide)
  refine ⟨h1, ?_⟩
  have h4 := (h2 0 (by decide)).1
  have h5 : parseIntSeq (mkCell "5" false false "" false 1 1).sequenceNumber = 5 := by decide
  rw [h5] at h4
  simpa using h4

/-- C7: On every pointer-enter during an active autofill drag, the inferred
direction is horizontal when the hovered cell is in the source row and a
different column; vertical when it is in the source column and a different
row; when both coordinates differ, horizontal iff the absolute column delta is
at least the absolute row delta (ties favor horizontal); and no direction when
the hovered cell equals the source. -/
theorem inferAutofillDirection_spec (sourceRow sourceCol rowIndex colIndex : Int) :
    (rowIndex = sourceRow ∧ colIndex ≠ sourceCol →
      inferAutofillDirection sourceRow sourceCol rowIndex colIndex = some .horizontal) ∧
    (colIndex = sourceCol ∧ rowIndex ≠ sourceRow →
      inferAutofillDirection sourceRow sourceCol rowIndex colIndex = some .vertical) ∧
    (rowIndex ≠ sourceRow ∧ colIndex ≠ sourceCol →
      ((inferAutofillDirection sourceRow sourceCol rowIndex colIndex = some .horizontal ↔
        (colIndex - sourceCol).natAbs ≥ (rowIndex - sourceRow).natAbs) ∧
       (inferAutofillDirection sourceRow sourceCol rowIndex colIndex = some .vertical ↔
        (colIndex - sourceCol).natAbs < (rowIndex - sourceRow).natAbs))) ∧
    (rowIndex = sourceRow ∧ colIndex = sourceCol →
      inferAutofillDirection sourceRow sourceCol rowIndex colIndex = none) := by
  unfold inferAutofillDirection
  refine ⟨fun h => ?_, fun h => ?_, fun h => ?_, fun h => ?_⟩ <;>
    simp only [h] <;> split_ifs with h1 h2 h3 <;> simp_all

/-- Witness for C7 at concrete hover points around source (2,2): same row,
same column, a tie on both deltas (horizontal wins), and the source itself. -/
theorem inferAutofillDirection_spec_witness :
    inferAutofillDirection 2 2 2 5 = some .horizontal ∧
    inferAutofillDirection 2 2 7 2 = some .vertical ∧
    inferAutofillDirection 2 2 4 4 = some .horizontal ∧
    inferAutofillDirection 2 2 2 2 = none := by
  refine ⟨(inferAutofillDirection_spec 2 2 2 5).1 (by decide),
          (inferAutofillDirection_spec 2 2 7 2).2.1 (by decide),
          ((inferAutofillDirection_spec 2 2 4 4).2.2.1 (by decide)).1.mpr (by decide),
          (inferAutofillDirection_spec 2 2 2 2).2.2.2 (by decide)⟩

/-- C10: the mergeId generated by merge is not injective in the rectangle: the
rectangle rows 1–1 × columns 1–11 and the rectangle rows 1–11 × columns 1–1
are distinct yet both produce the id `"11111"`, so two merge groups created
from different rectangles can collide on the same mergeId string. -/
theorem createMergeId_not_injective :
    createMergeId 1 1 1 11 = "11111" ∧
    createMergeId 1 1 11 1 = "11111" ∧
    ((1, 1, 1, 11) : Int × Int × Int × Int) ≠ (1, 1, 11, 1) := by
  decide

/-- C8: grid creation rejects row or column counts outside `[1,100]`
(including non-numeric input, embedded as `none`) without changing state, and
`addRow`/`addColumn` reject exactly when the resulting count would exceed 100,
leaving the grid at its prior size. -/
theorem dimension_limits_spec (r c : Int) (rowIn colIn : Option Int)
    (rowCount columnCount : Int) (rows : List TableRow) :
    (1 ≤ r ∧ r ≤ 100 ∧ 1 ≤ c ∧ c ≤ 100 →
      ∃ g, createNewTable r c = some g ∧ applyDimensions (some r) (some c) = .created g) ∧
    (¬(1 ≤ r ∧ r ≤ 100 ∧ 1 ≤ c ∧ c ≤ 100) →
      ∃ msg, applyDimensions (some r) (some c) = .rejected msg) ∧
    (rowIn = none ∨ colIn = none → ∃ msg, applyDimensions rowIn colIn = .rejected msg) ∧
    (rowCount + 1 > 100 →
      addRow rowCount columnCount rows = (rowCount, rows, some "Maximum 100 rows")) ∧
    (rowCount + 1 ≤ 100 →
      addRow rowCount columnCount rows =
        (rowCount + 1, rows ++ [defaultRow (rowCount + 1) columnCount.toNat], none)) ∧
    (columnCount + 1 > 100 →
      addColumn columnCount rows = (columnCount, rows, some "Maximum 100 columns")) ∧
    (columnCount + 1 ≤ 100 →
      addColumn columnCount rows =
        (columnCount + 1,
         rows.map (fun row =>
           { row with cells := row.cells ++ [defaultCell row.rowIndex (columnCount + 1)] }),
         none)) := by
  refine ⟨fun h => ?_, fun h => ?_, fun h => ?_, fun h => ?_, fun h => ?_, fun h => ?_,
          fun h => ?_⟩
  · refine ⟨((List.range r.toNat).map fun idx : Nat => defaultRow ((idx : Int) + 1) c.toNat),
      ?_, ?_⟩
    · simp only [createNewTable, if_neg (by omega : ¬(r ≤ 0 ∨ c ≤ 0))]
    · simp only [applyDimensions, if_neg (by omega : ¬(r ≤ 0 ∨ c ≤ 0)),
        if_neg (by omega : ¬(r > 100 ∨ c > 100)), createNewTable]
  · by_cases h1 : r ≤ 0 ∨ c ≤ 0
    · exact ⟨"Rows and columns must be positive numbers",
        by simp only [applyDimensions, if_pos h1]⟩
    · exact ⟨"Maximum 100 rows and 100 columns",
        by simp only [applyDimensions, if_neg h1, if_pos (by omega : r > 100 ∨ c > 100)]⟩
  · rcases h with h | h <;> subst h
    · exact ⟨_, by cases colIn <;> rfl⟩
    · exact ⟨_, by cases rowIn <;> rfl⟩
  · simp only [addRow, if_pos h]
  · simp only [addRow, if_neg (by omega : ¬(rowCount + 1 > 100))]
  · simp only [addColumn, if_pos h]
  · simp only [addColumn, if_neg (by omega : ¬(columnCount + 1 > 100))]

/-- Witness for C8 at the exact ceiling: creating 100×100 succeeds, 101 rows
is rejected, non-numeric input is rejected, `addRow` at 99 rows succeeds and
at 100 rows is rejected. -/
theorem dimension_limits_spec_witness :
    (∃ g, createNewTable 100 100 = some g ∧ applyDimensions (some 100) (some 100) = .created g) ∧
    (∃ msg, applyDimensions (some 101) (some 3) = .rejected msg) ∧
    (∃ msg, applyDimensions none (some 3) = .rejected msg) ∧
    addRow 100 3 [] = (100, [], some "Maximum 100 rows") ∧
    addRow 99 3 [] = (100, [defaultRow 100 3], none) := by
  refine ⟨(dimension_limits_spec 100 100 none none 0 0 []).1 (by decide),
          (dimension_limits_spec 101 3 none none 0 0 []).2.1 (by decide),
          (dimension_limits_spec 0 0 none (some 3) 0 0 []).2.2.1 (Or.inl rfl),
          (dimension_limits_spec 0 0 none none 100 3 []).2.2.2.1 (by decide),
          ?_⟩
  have h := (dimension_limits_spec 0 0 none none 99 3 []).2.2.2.2.1 (by decide)
  simpa using h

end CavityTemplate
